import Mathlib

/-!
Verification of the figure-composition module
`source/evaluations/paper_cvprw_2017.py` of the 4D Light Field Benchmark
evaluation toolkit.

The module assembles matplotlib figures from precomputed scene data and
algorithm results.  We model it with a shallow embedding:

* an image is a pixel function `Nat → Nat → ℚ` (numpy float arrays),
* a figure is a grid geometry together with the ordered list of subplot
  commands ("panels") the function issues, each recording the flat grid
  index passed to `plt.subplot(grid[...])` / `plotting.add_colorbar(grid[...], ...)`
  and the rendered content,
* collaborator modules that are not part of the analysed source
  (`utils.misc`, `utils.plotting`, `metrics`, `settings`, `algorithms`) enter as
  explicit function parameters, or — where a property depends on their
  behaviour — as definitions modelled from the specification and marked as such.

The source file is Python 2 (it guards one division with `float(...)` and
leaves the other as integer division), so `idx / n_entries_per_row` at line 205
of the source is embedded as `Nat` floor division.
-/

/-- Image data: a pixel function, as produced by the numpy arrays of the
source (disparity maps, center views, error maps).  Row index first. -/
abbrev Image := Nat → Nat → ℚ

/-- Boolean evaluation mask, as used by the metric collaborators. -/
abbrev Mask := Nat → Nat → Bool

/-- Scene collaborator interface: the methods of a scene object that
`paper_cvprw_2017.py` calls (`get_center_view`, `get_gt`, `hidden_gt`,
`get_display_name`, `get_name`, `get_category`). -/
structure Scene where
  centerView : Image
  gt : Image
  hiddenGt : Bool
  displayName : String
  sceneName : String
  category : String

/-- Algorithm collaborator interface: `get_name` / `get_display_name`. -/
structure Algorithm where
  algName : String
  displayName : String

/-- Content of one rendered subplot.  Each constructor records which plotting
call produced the panel and with which literal arguments; keyword-argument
bundles fetched from the external `settings` module are abstracted into the
constructor name (the analysed file passes them opaque). -/
inductive PanelContent where
  /-- Plain `plt.imshow(img)`. -/
  | imshow (img : Image)
  /-- Rendering `plt.imshow(img, **settings.disp_map_args(scene))`. -/
  | imshowDisp (img : Image)
  /-- Rendering `plt.imshow(img, **settings.diff_map_args(vmin, vmax))`. -/
  | imshowDiff (img : Image) (vmin vmax : ℚ)
  /-- Rendering `plt.imshow(img, interpolation="none", cmap=cm.RdYlGn, vmin=vmin, vmax=vmax)` —
  the diverging color scale used for the median-diff maps. -/
  | imshowRdYlGn (img : Image) (vmin vmax : ℚ)
  /-- Rendering `plt.imshow(img, **settings.abs_diff_map_args())`. -/
  | imshowAbsDiff (img : Image)
  /-- Rendering `plt.imshow(img, **settings.metric_args(metric))`. -/
  | imshowMetric (img : Image)
  /-- Colorbar attached through `plotting.add_colorbar(grid[i], ...)`; it
  occupies the grid cell `i` like any other panel. -/
  | colorbar
  /-- Subplot selected only to receive an axis label (no image drawn). -/
  | ylabelOnly

/-- Panel: a subplot claim on the flat grid index `gridIdx` (row-major over a
`rows × cols` grid) together with its rendered content. -/
structure Panel where
  gridIdx : Nat
  content : PanelContent

/-- Figure: grid geometry, the ordered list of issued panels, and the path of
the single output file written by `plotting.save_tight_figure`. -/
structure FigureSpec where
  rows : Nat
  cols : Nat
  panels : List Panel
  savePath : String

/-- Modelled from the spec: `plotting.get_path_to_figure(fig_name, subdir)`
(the `plotting` collaborator is not part of the analysed source; the spec
says the output path is determined by a figure name and a subdirectory). -/
def getPathToFigure (figName subdir : String) : String :=
  subdir ++ "/" ++ figName

/-! ### plot_scene_overview (source lines 43–74)

The obscuring transform `plotting.pixelize` lives in the external `plotting`
module; it is passed in as a parameter `pixelizeF`.  Because the spec
describes it as a *random* perturbation, the parameter additionally receives
the ambient random state `rng : Nat`, which the surrounding code does not
seed or control. -/

/-- Panels of the scene-overview loop (source lines 50–61): for the scene at
enumeration index `idxS`, the center view at grid cell `idxS` and the ground
truth — obscured through `pixelizeF` with `noise_factor=0.5` when the scene
hides its ground truth — at grid cell `cols + idxS`. -/
def sceneOverviewPanels (pixelizeF : Image → ℚ → Nat → Image) (rng : Nat)
    (cols : Nat) : List (Nat × Scene) → List Panel
  | [] => []
  | (idxS, scene) :: rest =>
      let gt := scene.gt
      let gtShown := if scene.hiddenGt then pixelizeF gt (1/2) rng else gt
      ⟨idxS, .imshow scene.centerView⟩ ::
        ⟨cols + idxS, .imshowDisp gtShown⟩ ::
          sceneOverviewPanels pixelizeF rng cols rest

/-- Embedding of `plot_scene_overview(scenes, subdir)`: a `2 × len(scenes)`
grid, one center-view panel and one ground-truth panel per scene, saved as
figure "scenes".  (The three fixed text annotations of source lines 64–70
draw outside the grid and claim no subplot.) -/
def plotSceneOverview (pixelizeF : Image → ℚ → Nat → Image) (rng : Nat)
    (scenes : List Scene) (subdir : String) : FigureSpec :=
  let rows := 2
  let cols := scenes.length
  { rows := rows
    cols := cols
    panels := sceneOverviewPanels pixelizeF rng cols scenes.enum
    savePath := getPathToFigure "scenes" subdir }

/-- Modelled from the spec: `plotting.pixelize(img, noise_factor)` (missing
from src/).  The spec describes "a fixed-fraction random perturbation of
pixel positions": a `noiseFactor` fraction of pixel positions (selected by a
position hash against the ambient random state `rng`) take their value from
a pseudo-randomly displaced position; the remaining pixels are untouched. -/
def specPixelize (img : Image) (noiseFactor : ℚ) (rng : Nat) : Image :=
  fun i j =>
    if (((i * 31 + j * 17 + rng) % 100 : Nat) : ℚ) < noiseFactor * 100 then
      img (i + 1 + (i * 13 + j * 7 + rng) % 5) (j + (j * 11 + i * 3 + rng) % 5)
    else
      img i j

/-! ### Generic helper lemmas -/

/-- Flat-mapping a function of the enumeration index only over `enumFrom`
is flat-mapping it over the corresponding index range. -/
theorem enumFrom_flatMap_fst {α β : Type} (h : Nat → List β) :
    ∀ (l : List α) (n : Nat),
      (List.enumFrom n l).flatMap (fun p => h p.1) = (List.range' n l.length).flatMap h
  | [], _ => rfl
  | _ :: xs, n => by
    simp only [List.enumFrom, List.length_cons, List.range', List.flatMap_cons]
    rw [enumFrom_flatMap_fst h xs (n + 1)]

/-- Decomposition of a flat row-major grid index: row and column are
recovered by division and remainder when the column is in range. -/
theorem rowcol_div_mod {c : Nat} (a : Nat) {b : Nat} (hb : b < c) :
    (a * c + b) / c = a ∧ (a * c + b) % c = b := by
  have h2 : 0 < c := Nat.pos_of_ne_zero (by omega)
  constructor
  · rw [Nat.add_comm, Nat.add_mul_div_right _ _ h2, Nat.div_eq_of_lt hb]
    omega
  · rw [Nat.add_comm, Nat.add_mul_mod_self_right, Nat.mod_eq_of_lt hb]

/-- Row-major grid indices with in-range columns are injective in the
(row, column) pair. -/
theorem rowcol_inj {c a b a' b' : Nat} (hb : b < c) (hb' : b' < c)
    (h : a * c + b = a' * c + b') : a = a' ∧ b = b' := by
  have h1 := rowcol_div_mod a hb
  have h2 := rowcol_div_mod a' hb'
  rw [h] at h1
  exact ⟨h1.1.symm.trans h2.1, h1.2.symm.trans h2.2⟩

/-! ### Structural lemmas for the scene overview -/

/-- Position of each scene's two panels in the emitted panel list: the scene
at enumeration index `n + i` contributes its center-view panel at list
position `2*i` (grid cell `n + i`) and its ground-truth panel at list
position `2*i + 1` (grid cell `cols + (n + i)`). -/
theorem sceneOverviewPanels_get (pixelizeF : Image → ℚ → Nat → Image) (rng cols : Nat) :
    ∀ (l : List Scene) (n i : Nat) (hi : i < l.length),
      (sceneOverviewPanels pixelizeF rng cols (List.enumFrom n l)).get? (2 * i) =
          some ⟨n + i, .imshow (l.get ⟨i, hi⟩).centerView⟩ ∧
        (sceneOverviewPanels pixelizeF rng cols (List.enumFrom n l)).get? (2 * i + 1) =
          some ⟨cols + (n + i), .imshowDisp
            (if (l.get ⟨i, hi⟩).hiddenGt then pixelizeF (l.get ⟨i, hi⟩).gt (1/2) rng
             else (l.get ⟨i, hi⟩).gt)⟩
  | s :: rest, n, 0, _ => by
      simp [sceneOverviewPanels, List.enumFrom]
  | s :: rest, n, i + 1, hi => by
      have hi' : i < rest.length := by simpa using Nat.lt_of_succ_lt_succ hi
      have ih := sceneOverviewPanels_get pixelizeF rng cols rest (n + 1) i hi'
      have e1 : 2 * (i + 1) = 2 * i + 1 + 1 := by ring
      have e2 : 2 * (i + 1) + 1 = (2 * i + 1 + 1) + 1 := by ring
      simp only [List.enumFrom, sceneOverviewPanels, e1, e2, List.get?_cons_succ,
        List.length_cons, List.get]
      constructor
      · rw [ih.1]
        congr 2
        omega
      · rw [ih.2]
        congr 3
        omega

/-- Panels are rng-independent when no scene hides its ground truth. -/
theorem sceneOverviewPanels_rng_irrel (pixelizeF : Image → ℚ → Nat → Image)
    (rng₁ rng₂ cols : Nat) :
    ∀ (l : List Scene) (n : Nat), (∀ s ∈ l, s.hiddenGt = false) →
      sceneOverviewPanels pixelizeF rng₁ cols (List.enumFrom n l) =
        sceneOverviewPanels pixelizeF rng₂ cols (List.enumFrom n l)
  | [], _, _ => rfl
  | s :: rest, n, h => by
      have hs : s.hiddenGt = false := h s (List.mem_cons_self s rest)
      have ih := sceneOverviewPanels_rng_irrel pixelizeF rng₁ rng₂ cols rest (n + 1)
        (fun x hx => h x (List.mem_cons_of_mem s hx))
      simp only [List.enumFrom, sceneOverviewPanels, hs, if_false, ih, Bool.false_eq_true]

/-! ### Demo inputs used by witnesses and counterexamples -/

/-- Demo image with pairwise-distinct pixel values. -/
def demoImage : Image := fun i j => (i * 100 + j : ℚ)

/-- Demo scene with visible (non-hidden) ground truth. -/
def demoScene : Scene :=
  ⟨demoImage, demoImage, false, "Demo", "demo", "training"⟩

/-- Demo scene whose ground truth is flagged hidden. -/
def demoHiddenScene : Scene :=
  ⟨demoImage, demoImage, true, "Hidden", "hidden", "test"⟩

/-- Demo algorithm. -/
def demoAlgo : Algorithm := ⟨"algo1", "Algo 1"⟩

/-- Second demo algorithm. -/
def demoAlgo2 : Algorithm := ⟨"algo2", "Algo 2"⟩

/-! ### Claims C7, C2, C6 -/

/-- C7: for every list of scenes, `plot_scene_overview` lays out exactly 2
rows and `len(scenes)` columns, placing each scene's center view in the
first grid row (its flat index divides to row 0) and its ground-truth
disparity in the second grid row (its flat index divides to row 1). -/
theorem scene_overview_two_row_grid (pixelizeF : Image → ℚ → Nat → Image)
    (rng : Nat) (scenes : List Scene) (subdir : String) :
    (plotSceneOverview pixelizeF rng scenes subdir).rows = 2 ∧
    (plotSceneOverview pixelizeF rng scenes subdir).cols = scenes.length ∧
    ∀ i (hi : i < scenes.length),
      ((plotSceneOverview pixelizeF rng scenes subdir).panels.get? (2 * i) =
          some ⟨i, .imshow (scenes.get ⟨i, hi⟩).centerView⟩ ∧
        i / scenes.length = 0) ∧
      ((plotSceneOverview pixelizeF rng scenes subdir).panels.get? (2 * i + 1) =
          some ⟨scenes.length + i, .imshowDisp
            (if (scenes.get ⟨i, hi⟩).hiddenGt
             then pixelizeF (scenes.get ⟨i, hi⟩).gt (1/2) rng
             else (scenes.get ⟨i, hi⟩).gt)⟩ ∧
        (scenes.length + i) / scenes.length = 1) := by
  refine ⟨rfl, rfl, fun i hi => ?_⟩
  have h := sceneOverviewPanels_get pixelizeF rng scenes.length scenes 0 i hi
  have hpos : 0 < scenes.length := Nat.pos_of_ne_zero (by omega)
  constructor
  · refine ⟨by simpa [plotSceneOverview, List.enum] using h.1, ?_⟩
    exact Nat.div_eq_of_lt hi
  · refine ⟨by simpa [plotSceneOverview, List.enum] using h.2, ?_⟩
    rw [Nat.add_comm, Nat.add_div_right i hpos, Nat.div_eq_of_lt hi]

/-- C7 witness: the concrete single-scene figure has its center view at grid
cell 0 of row 0. -/
theorem scene_overview_two_row_grid_witness :
    (plotSceneOverview specPixelize 0 [demoScene] "overview").panels.get? 0 =
        some ⟨0, .imshow (([demoScene].get ⟨0, by decide⟩)).centerView⟩ ∧
      (0 : Nat) / ([demoScene] : List Scene).length = 0 :=
  ((scene_overview_two_row_grid specPixelize 0 [demoScene] "overview").2.2 0 (by decide)).1

/-- C2: in `plot_scene_overview` the ground-truth panel of the scene at index
`i` renders through the obscuring transform exactly when the scene is flagged
hidden: when `hidden_gt()` holds it shows `pixelize(gt, noise_factor=0.5)`,
otherwise it shows the unmodified ground truth. -/
theorem hidden_gt_renders_obscured (pixelizeF : Image → ℚ → Nat → Image)
    (rng : Nat) (scenes : List Scene) (subdir : String) :
    ∀ i (hi : i < scenes.length),
      ((scenes.get ⟨i, hi⟩).hiddenGt = true →
        (plotSceneOverview pixelizeF rng scenes subdir).panels.get? (2 * i + 1) =
          some ⟨scenes.length + i,
            .imshowDisp (pixelizeF (scenes.get ⟨i, hi⟩).gt (1/2) rng)⟩) ∧
      ((scenes.get ⟨i, hi⟩).hiddenGt = false →
        (plotSceneOverview pixelizeF rng scenes subdir).panels.get? (2 * i + 1) =
          some ⟨scenes.length + i, .imshowDisp (scenes.get ⟨i, hi⟩).gt⟩) := by
  intro i hi
  have h := (sceneOverviewPanels_get pixelizeF rng scenes.length scenes 0 i hi).2
  constructor
  · intro hh
    rw [hh] at h
    simpa [plotSceneOverview, List.enum] using h
  · intro hh
    rw [hh] at h
    simpa [plotSceneOverview, List.enum] using h

/-- C2 witness: the concrete hidden scene's ground-truth panel shows the
obscured image, and the concrete visible scene's shows the plain one. -/
theorem hidden_gt_renders_obscured_witness :
    (plotSceneOverview specPixelize 0 [demoHiddenScene] "overview").panels.get? 1 =
        some ⟨1 + 0, .imshowDisp (specPixelize (([demoHiddenScene].get ⟨0, by decide⟩)).gt (1/2) 0)⟩ ∧
      (plotSceneOverview specPixelize 0 [demoScene] "overview").panels.get? 1 =
        some ⟨1 + 0, .imshowDisp (([demoScene].get ⟨0, by decide⟩)).gt⟩ :=
  ⟨(hidden_gt_renders_obscured specPixelize 0 [demoHiddenScene] "overview" 0 (by decide)).1 rfl,
   (hidden_gt_renders_obscured specPixelize 0 [demoScene] "overview" 0 (by decide)).2 rfl⟩

/-- C6 (amended): `plot_scene_overview` is deterministic — independent of the
ambient random state feeding the obscuring transform — whenever no scene in
the input is flagged hidden.  (The obscured rendering itself is randomized,
see the counterexample below.) -/
theorem scene_overview_deterministic_without_hidden
    (pixelizeF : Image → ℚ → Nat → Image) (scenes : List Scene) (subdir : String)
    (h : ∀ s ∈ scenes, s.hiddenGt = false) (rng₁ rng₂ : Nat) :
    plotSceneOverview pixelizeF rng₁ scenes subdir =
      plotSceneOverview pixelizeF rng₂ scenes subdir := by
  simp only [plotSceneOverview, List.enum]
  rw [sceneOverviewPanels_rng_irrel pixelizeF rng₁ rng₂ scenes.length scenes 0 h]

/-- C6 witness: the concrete visible-ground-truth figure is identical across
two different ambient random states. -/
theorem scene_overview_deterministic_without_hidden_witness :
    plotSceneOverview specPixelize 0 [demoScene] "overview" =
      plotSceneOverview specPixelize 5 [demoScene] "overview" :=
  scene_overview_deterministic_without_hidden specPixelize [demoScene] "overview"
    (by
      intro s hs
      rw [List.mem_singleton] at hs
      subst hs
      rfl)
    0 5

/-- C6 counterexample: with the spec-modelled random obscuring transform, two
runs of `plot_scene_overview` on the same single hidden-ground-truth scene
but under different ambient random states produce different figures (the
obscured ground-truth panel differs at pixel (0,0)), refuting pixel-identical
determinism for hidden scenes. -/
theorem scene_overview_rng_counterexample :
    plotSceneOverview specPixelize 0 [demoHiddenScene] "overview" ≠
      plotSceneOverview specPixelize 1 [demoHiddenScene] "overview" := by
  intro h
  have hp := congrArg FigureSpec.panels h
  simp only [plotSceneOverview, List.enum, List.enumFrom, sceneOverviewPanels,
    demoHiddenScene, if_true] at hp
  have h2 : specPixelize demoImage (1/2) 0 = specPixelize demoImage (1/2) 1 := by
    simpa using hp
  have h3 := congrFun (congrFun h2 0) 0
  norm_num [specPixelize, demoImage] at h3

/-! ### plot_normals_explanation (source lines 77–113) -/

/-- Metric collaborator interface for the two surface-normal metrics
(`MAEContinSurf`, `MAEPlanes` from the external `metrics` module):
`get_evaluation_mask(scene)` and
`get_score_from_mask(algo_result, gt, scene, mask, with_visualization=True)`,
the latter returning the scalar score and the visualization array. -/
structure NormalsMetric where
  evalMask : Scene → Mask
  scoreFromMask : Image → Image → Scene → Mask → ℚ × Image

/-- Embedding of numpy `+` on boolean mask arrays: pixel-wise logical or,
i.e. set union of the masked pixel sets. -/
def maskAdd (a b : Mask) : Mask := fun i j => a i j || b i j

/-- Embedding of the Python format expression `"%0.1f" % q`: fixed-point
rendering with exactly one decimal digit (rounding to the nearest tenth). -/
def formatF1 (q : ℚ) : String :=
  let n : Int := round (q * 10)
  let sign := if n < 0 then "-" else ""
  sign ++ toString (n.natAbs / 10) ++ "." ++ toString (n.natAbs % 10)

/-- Figure of `plot_normals_explanation` together with the scoring-call
arguments it used: the mask passed to `get_score_from_mask` and the title
string of the error panel. -/
structure NormalsFigure where
  fig : FigureSpec
  maskUsed : Mask
  errorTitle : String

/-- Embedding of `plot_normals_explanation(scene, algorithm, fs, subdir)`:
a 1×4 grid (ground-truth normals, algorithm normals, median-angular-error
map, colorbar); the evaluation mask is the numpy `+` (union) of the two
normal metrics' masks (source line 90) and the third panel's title shows the
score through `"%0.1f"` formatting (source line 107). -/
def plotNormalsExplanation (normalsContin normalsPlanes : NormalsMetric)
    (algoResult : Scene → Algorithm → Image) (normalVis : Scene → Image → Image)
    (scene : Scene) (algorithm : Algorithm) (subdir : String) : NormalsFigure :=
  let rows := 1
  let cols := 4
  let gt := scene.gt
  let algoRes := algoResult scene algorithm
  let mask := maskAdd (normalsContin.evalMask scene) (normalsPlanes.evalMask scene)
  let scored := normalsContin.scoreFromMask algoRes gt scene mask
  { fig :=
      { rows := rows
        cols := cols
        panels :=
          [⟨0, .imshow (normalVis scene gt)⟩,
           ⟨1, .imshow (normalVis scene algoRes)⟩,
           ⟨2, .imshowMetric scored.2⟩,
           ⟨3, .colorbar⟩]
        savePath := getPathToFigure
          ("metrics_" ++ scene.sceneName ++ "_" ++ algorithm.algName) subdir }
    maskUsed := mask
    errorTitle := "Median Angular Error: " ++ formatF1 scored.1 }

/-- C8: in `plot_normals_explanation`, the mask handed to the scoring call is
the pixel-wise set union of the continuous-surface metric's and the planar
metric's evaluation masks, and the title displays the score of exactly that
scoring call formatted to one decimal place. -/
theorem normals_mask_union_and_title (normalsContin normalsPlanes : NormalsMetric)
    (algoResult : Scene → Algorithm → Image) (normalVis : Scene → Image → Image)
    (scene : Scene) (algorithm : Algorithm) (subdir : String) :
    (∀ i j,
      (plotNormalsExplanation normalsContin normalsPlanes algoResult normalVis
          scene algorithm subdir).maskUsed i j = true ↔
        (normalsContin.evalMask scene i j = true ∨
          normalsPlanes.evalMask scene i j = true)) ∧
    (plotNormalsExplanation normalsContin normalsPlanes algoResult normalVis
        scene algorithm subdir).errorTitle =
      "Median Angular Error: " ++ formatF1
        (normalsContin.scoreFromMask (algoResult scene algorithm) scene.gt scene
          (plotNormalsExplanation normalsContin normalsPlanes algoResult normalVis
            scene algorithm subdir).maskUsed).1 := by
  constructor
  · intro i j
    simp [plotNormalsExplanation, maskAdd]
  · rfl

/-! ### plot_radar_charts (source lines 127–162) -/

/-- Metric identifiers appearing in `plot_radar_charts`.  The constructor
`sceneSpecific` stands for the scene-specific stratified metrics returned by
the external `misc.get_stratified_metrics()`. -/
inductive MetricId where
  | runtime (log : Bool)
  | mse
  | quantile (q : Nat)
  | badPix (t : ℚ)
  | maePlanes
  | maeContinSurf
  | bumpinessPlanes
  | bumpinessContinSurf
  | fineFattening
  | fineThinning
  | discontinuities
  | sceneSpecific (idx : Nat)

/-- Arguments of one `radar_chart.plot(...)` invocation. -/
structure RadarCall where
  metrics : List MetricId
  maxPerMetric : List ℚ
  figName : String

/-- Base metrics shared by both radar charts (source lines 128–129). -/
def baseMetrics (logRuntime : Bool) : List MetricId :=
  [.runtime logRuntime, .mse, .quantile 25,
   .badPix (1/100), .badPix (3/100), .badPix (7/100)]

/-- Region metrics of the photorealistic chart (source lines 131–133). -/
def regionMetrics : List MetricId :=
  [.maePlanes, .maeContinSurf,
   .bumpinessPlanes, .bumpinessContinSurf,
   .fineFattening, .fineThinning, .discontinuities]

/-- Embedding of `plot_radar_charts(algorithms, log_runtime, subdir)`: the two
`radar_chart.plot` calls it issues, with their metric lists and the literal
`max_per_metric` value lists of source lines 138 and 151.  The stratified
metric list comes from the external `misc.get_stratified_metrics()` and is a
parameter. -/
def plotRadarCharts (stratifiedMetrics : List MetricId) (logRuntime : Bool) :
    List RadarCall :=
  [{ metrics := baseMetrics logRuntime ++ stratifiedMetrics
     maxPerMetric := [5, 16, 2, 120, 80, 40, 40, 8, 6, 6, 24, 128, 48, 64, 100]
     figName := "radar_stratified" },
   { metrics := baseMetrics logRuntime ++ regionMetrics
     maxPerMetric := [5, 12, 2, 128, 72, 32, 80, 80, 4, 4, 80, 16, 72]
     figName := "radar_photorealistic" }]

/-- C5: for the benchmark's 9 scene-specific stratified metrics, every
`radar_chart.plot` call of `plot_radar_charts` passes a `max_per_metric` list
whose length equals its metric count: the stratified call passes 15 values
for 6 base + 9 stratified metrics, the photorealistic call 13 values for
6 base + 7 region metrics. -/
theorem radar_max_per_metric_length_matches (stratifiedMetrics : List MetricId)
    (logRuntime : Bool) (h : stratifiedMetrics.length = 9) :
    (∀ c ∈ plotRadarCharts stratifiedMetrics logRuntime,
        c.maxPerMetric.length = c.metrics.length) ∧
      ((plotRadarCharts stratifiedMetrics logRuntime).map
          fun c => c.maxPerMetric.length) = [15, 13] ∧
      (baseMetrics logRuntime).length = 6 ∧ regionMetrics.length = 7 := by
  refine ⟨?_, by simp [plotRadarCharts], by simp [baseMetrics], by simp [regionMetrics]⟩
  intro c hc
  simp only [plotRadarCharts, List.mem_cons, List.not_mem_nil, or_false] at hc
  rcases hc with h1 | h1 <;> subst h1 <;>
    simp [baseMetrics, regionMetrics, h]

/-- C5 witness: with a concrete 9-element stratified metric list, both calls
have matching lengths. -/
theorem radar_max_per_metric_length_matches_witness :
    ((List.range 9).map MetricId.sceneSpecific).length = 9 ∧
      ∀ c ∈ plotRadarCharts ((List.range 9).map MetricId.sceneSpecific) true,
        c.maxPerMetric.length = c.metrics.length :=
  ⟨by simp,
   (radar_max_per_metric_length_matches ((List.range 9).map MetricId.sceneSpecific)
      true (by simp)).1⟩

/-! ### plot_discont_overview (source lines 174–229) -/

/-- Modelled from the spec: the per-pixel median-of-all-algorithms baseline
algorithm object `PerPixMedianDiff()` from the external `algorithms` module.
Only its identity matters here: its precomputed result is fetched through
`misc.get_algo_result` like any other algorithm's. -/
def perPixMedianDiff : Algorithm := ⟨"per_pix_median_diff", "PerPixMedianDiff"⟩

/-- Embedding of the numpy window slice `arr[ymin:ymin+ww, xmin:xmin+ww]`:
a `ww × ww` view with origin `(ymin, xmin)` (pixels outside the window are
not rendered; the model returns 0 there). -/
def npSlice (img : Image) (ymin xmin ww : Nat) : Image :=
  fun i j => if i < ww ∧ j < ww then img (ymin + i) (xmin + j) else 0

/-- Panels emitted for one algorithm of `plot_discont_overview` (source lines
199–226).  With `idx = idx_a + 1`, `idx_row = (idx / n_entries_per_row) * 2`
(Python-2 integer division; `n_vis_types = 2`) and
`idx_col = idx % n_entries_per_row`: the cropped disparity map in super-row
`idx_row`, the cropped median-diff map in super-row `idx_row + 1`, and — when
the entry sits in the last column, i.e. `(idx + 1) % n_entries_per_row == 0` —
one colorbar beside each of the two. -/
def discontBlock (algoResult : Scene → Algorithm → Image) (scene : Scene)
    (gt medianResult : Image) (nEntriesPerRow cols ymin xmin ww : Nat)
    (idxA : Nat) (algorithm : Algorithm) : List Panel :=
  let algoRes := algoResult scene algorithm
  let idx := idxA + 1
  let idxRow := (idx / nEntriesPerRow) * 2
  let idxCol := idx % nEntriesPerRow
  [⟨idxRow * cols + idxCol, .imshowDisp (npSlice algoRes ymin xmin ww)⟩]
  ++ (if (idx + 1) % nEntriesPerRow = 0
      then [⟨idxRow * cols + idxCol + 1, .colorbar⟩] else [])
  ++ [⟨(idxRow + 1) * cols + idxCol,
        .imshowRdYlGn
          (npSlice (fun i j => |medianResult i j - gt i j| - |algoRes i j - gt i j|)
            ymin xmin ww)
          (-(1/20)) (1/20)⟩]
  ++ (if (idx + 1) % nEntriesPerRow = 0
      then [⟨(idxRow + 1) * cols + idxCol + 1, .colorbar⟩] else [])

/-- Embedding of `plot_discont_overview(algorithms, scene, n_rows, fs, subdir,
xmin, ymin, ww)`: a `(2*n_rows) × (n_entries_per_row + 1)` grid with
`n_entries_per_row = ceil((len(algorithms)+1) / n_rows)`, a cropped center
view at grid cell 0, a label-only subplot at grid cell `cols` (source lines
192–197; the `plt.ylabel` calls of lines 213–214 and 223–224 draw on already
claimed subplots), and one `discontBlock` per algorithm. -/
def plotDiscontOverview (algoResult : Scene → Algorithm → Image)
    (algorithms : List Algorithm) (scene : Scene) (nRows : Nat)
    (subdir : String) (xmin ymin ww : Nat) : FigureSpec :=
  let nVisTypes := 2
  let nEntriesPerRow := (algorithms.length + 1 + (nRows - 1)) / nRows
  let rows := nVisTypes * nRows
  let cols := nEntriesPerRow + 1
  let gt := scene.gt
  let medianResult := algoResult scene perPixMedianDiff
  { rows := rows
    cols := cols
    panels :=
      ⟨0, .imshow (npSlice scene.centerView ymin xmin ww)⟩ ::
        ⟨cols, .ylabelOnly⟩ ::
          algorithms.enum.flatMap (fun p =>
            discontBlock algoResult scene gt medianResult nEntriesPerRow cols
              ymin xmin ww p.1 p.2)
    savePath := getPathToFigure ("discont_" ++ scene.sceneName) subdir }

/-! ### plot_median_comparisons (source lines 232–301) -/

/-- Python exceptions arising in our model of `plot_median_comparisons`. -/
inductive PyError where
  /-- Indexing `scenes[0]` on an empty scene list (source line 237). -/
  | indexError
  /-- Referencing the loop variable `idx_a` before any assignment
  (source line 283 with an empty algorithm list). -/
  | nameError
  /-- A failing `misc.get_algo_result` collaborator call. -/
  | lookupError
deriving DecidableEq

/-- Inner loop of `plot_median_comparisons` over `enumerate(algorithms)`
(source lines 249–280): per (scene, algorithm) a disparity panel, a signed
`gt - algo` error panel, a median-diff panel, and — in the last scene
column — one colorbar (the source alternates which error image the colorbar
samples by row parity, which changes the colorbar's content, not its grid
cell). -/
def medianAlgoPanels (algoResult : Scene → Algorithm → Except Unit Image)
    (scene : Scene) (gt medianRes : Image) (cols idxS nScenes : Nat) :
    List (Nat × Algorithm) → Except Unit (List Panel)
  | [] => .ok []
  | (idxA, algorithm) :: rest =>
      match algoResult scene algorithm with
      | .error e => .error e
      | .ok algoRes =>
        match medianAlgoPanels algoResult scene gt medianRes cols idxS nScenes rest with
        | .error e => .error e
        | .ok tail =>
            .ok (([⟨idxA * cols + 3 * idxS, .imshowDisp algoRes⟩,
                   ⟨idxA * cols + 3 * idxS + 1,
                     .imshowDiff (fun i j => gt i j - algoRes i j) (-(1/10)) (1/10)⟩,
                   ⟨idxA * cols + 3 * idxS + 2,
                     .imshowRdYlGn
                       (fun i j => |medianRes i j - gt i j| - |algoRes i j - gt i j|)
                       (-(1/20)) (1/20)⟩]
                  ++ (if idxS = nScenes - 1
                      then [⟨idxA * cols + 3 * idxS + 2 + 1, .colorbar⟩] else []))
                 ++ tail)

/-- Scene loop of `plot_median_comparisons` (source lines 242–298).  The
Python loop variable `idx_a` is threaded as an `Option Nat`: it is `none`
until the algorithm loop first binds it, and the `idx_a += 1` of source line
283 on an unbound variable is a `NameError`. -/
def medianScenePanels (algoResult : Scene → Algorithm → Except Unit Image)
    (algorithms : List Algorithm) (cols nScenes : Nat) (withGtRow : Bool) :
    List (Nat × Scene) → Option Nat → Except PyError (List Panel)
  | [], _ => .ok []
  | (idxS, scene) :: rest, idxA0 =>
      let gt := scene.gt
      match algoResult scene perPixMedianDiff with
      | .error _ => .error .lookupError
      | .ok medianRes =>
        match medianAlgoPanels algoResult scene gt medianRes cols idxS nScenes
            algorithms.enum with
        | .error _ => .error .lookupError
        | .ok algoPanels =>
          let idxA1 := if algorithms.length = 0 then idxA0
                       else some (algorithms.length - 1)
          if withGtRow then
            match idxA1 with
            | none => .error .nameError
            | some v =>
              let idxA := v + 1
              let gtBlock :=
                [⟨idxA * cols + 3 * idxS, .imshowDisp gt⟩,
                 ⟨idxA * cols + 3 * idxS + 1,
                   .imshowAbsDiff (fun i j => |gt i j - medianRes i j|)⟩]
                ++ (if idxS = nScenes - 1
                    then [⟨idxA * cols + 3 * idxS + 2 + 1, .colorbar⟩] else [])
              match medianScenePanels algoResult algorithms cols nScenes withGtRow
                  rest (some idxA) with
              | .error e => .error e
              | .ok tail => .ok (algoPanels ++ gtBlock ++ tail)
          else
            match medianScenePanels algoResult algorithms cols nScenes withGtRow
                rest idxA1 with
            | .error e => .error e
            | .ok tail => .ok (algoPanels ++ tail)

/-- Embedding of `plot_median_comparisons(scenes, algorithms, subdir,
with_gt_row, fs)` (source lines 232–301): a
`(len(algorithms) + int(with_gt_row)) × (len(scenes)*3 + 1)` grid.  The
result is the composed figure or the Python error raised; the second
component counts matplotlib figures still open when the call returns or
raises.  Modelled from the spec: `plotting.save_tight_figure` (missing from
src/) saves the figure to its single output path and releases it, so a
successful call leaves 0 figures open; the source closes nothing on an
exception path, so a failing call leaves 1 (the figure of line 236 is
created before `scenes[0]` is read at line 237).  The output file name uses
the category of the variable `scene` left over from the loop — the last
scene (source line 300). -/
def plotMedianComparisonsRun (algoResult : Scene → Algorithm → Except Unit Image)
    (scenes : List Scene) (algorithms : List Algorithm)
    (subdir : String) (withGtRow : Bool) :
    Except (PyError × Nat) (FigureSpec × Nat) :=
  match scenes with
  | [] => .error (.indexError, 1)
  | s0 :: rest =>
    let scs := s0 :: rest
    let rows := algorithms.length + (if withGtRow then 1 else 0)
    let cols := scs.length * 3 + 1
    match medianScenePanels algoResult algorithms cols scs.length withGtRow
        scs.enum none with
    | .error e => .error (e, 1)
    | .ok panels =>
        .ok ({ rows := rows
               cols := cols
               panels := panels
               savePath := getPathToFigure
                 ("median_comparison_" ++
                   (scs.getLast (List.cons_ne_nil s0 rest)).category) subdir }, 0)

/-! ### Success-path characterization of plot_median_comparisons -/

/-- Panels of the algorithm loop when every result lookup succeeds, with
`resF` the pure lookup function. -/
def medianAlgoPanelsP (resF : Scene → Algorithm → Image) (scene : Scene)
    (gt medianRes : Image) (cols idxS nScenes : Nat) :
    List (Nat × Algorithm) → List Panel
  | [] => []
  | (idxA, algorithm) :: rest =>
      let algoRes := resF scene algorithm
      ([⟨idxA * cols + 3 * idxS, .imshowDisp algoRes⟩,
        ⟨idxA * cols + 3 * idxS + 1,
          .imshowDiff (fun i j => gt i j - algoRes i j) (-(1/10)) (1/10)⟩,
        ⟨idxA * cols + 3 * idxS + 2,
          .imshowRdYlGn
            (fun i j => |medianRes i j - gt i j| - |algoRes i j - gt i j|)
            (-(1/20)) (1/20)⟩]
       ++ (if idxS = nScenes - 1
           then [⟨idxA * cols + 3 * idxS + 2 + 1, .colorbar⟩] else []))
      ++ medianAlgoPanelsP resF scene gt medianRes cols idxS nScenes rest

/-- Panels of one scene column block on the success path; the ground-truth
row, when present, sits at row index `len(algorithms)` (the final value of
`idx_a + 1`). -/
def medianSceneBlockP (resF : Scene → Algorithm → Image)
    (algorithms : List Algorithm) (cols nScenes : Nat) (withGtRow : Bool)
    (idxS : Nat) (scene : Scene) : List Panel :=
  let gt := scene.gt
  let medianRes := resF scene perPixMedianDiff
  medianAlgoPanelsP resF scene gt medianRes cols idxS nScenes algorithms.enum
  ++ (if withGtRow then
        [⟨algorithms.length * cols + 3 * idxS, .imshowDisp gt⟩,
         ⟨algorithms.length * cols + 3 * idxS + 1,
           .imshowAbsDiff (fun i j => |gt i j - medianRes i j|)⟩]
        ++ (if idxS = nScenes - 1
            then [⟨algorithms.length * cols + 3 * idxS + 2 + 1, .colorbar⟩]
            else [])
      else [])

/-- Algorithm loop on the success path. -/
theorem medianAlgoPanels_ok (resF : Scene → Algorithm → Image)
    (algoResult : Scene → Algorithm → Except Unit Image)
    (hres : ∀ s a, algoResult s a = .ok (resF s a))
    (scene : Scene) (gt medianRes : Image) (cols idxS nScenes : Nat) :
    ∀ l, medianAlgoPanels algoResult scene gt medianRes cols idxS nScenes l =
      .ok (medianAlgoPanelsP resF scene gt medianRes cols idxS nScenes l)
  | [] => rfl
  | (idxA, algorithm) :: rest => by
      have ih := medianAlgoPanels_ok resF algoResult hres scene gt medianRes
        cols idxS nScenes rest
      simp only [medianAlgoPanels, hres scene algorithm, ih, medianAlgoPanelsP]

/-- Scene loop on the success path: with all lookups succeeding and either a
nonempty algorithm list or no ground-truth row requested, the loop succeeds
and its panels are the concatenation of the per-scene blocks, independent of
the threaded `idx_a` state. -/
theorem medianScenePanels_ok (resF : Scene → Algorithm → Image)
    (algoResult : Scene → Algorithm → Except Unit Image)
    (hres : ∀ s a, algoResult s a = .ok (resF s a))
    (algorithms : List Algorithm) (cols nScenes : Nat) (withGtRow : Bool)
    (hA : algorithms.length ≠ 0 ∨ withGtRow = false) :
    ∀ (l : List (Nat × Scene)) (idxA0 : Option Nat),
      medianScenePanels algoResult algorithms cols nScenes withGtRow l idxA0 =
        .ok (l.flatMap (fun p =>
          medianSceneBlockP resF algorithms cols nScenes withGtRow p.1 p.2))
  | [], _ => rfl
  | (idxS, scene) :: rest, idxA0 => by
      have ih := medianScenePanels_ok resF algoResult hres algorithms cols nScenes
        withGtRow hA rest
      have hinner := medianAlgoPanels_ok resF algoResult hres scene scene.gt
        (resF scene perPixMedianDiff) cols idxS nScenes algorithms.enum
      rcases hA with hA | hA
      · have hA1 : algorithms.length - 1 + 1 = algorithms.length :=
          Nat.succ_pred_eq_of_pos (Nat.pos_of_ne_zero hA)
        cases withGtRow with
        | true =>
            simp only [medianScenePanels, hres scene perPixMedianDiff, hinner,
              if_neg hA, if_true, hA1, ih (some algorithms.length),
              medianSceneBlockP, List.flatMap_cons, List.append_assoc]
        | false =>
            simp only [medianScenePanels, hres scene perPixMedianDiff, hinner,
              if_neg hA, if_false, ih (some (algorithms.length - 1)),
              medianSceneBlockP, List.flatMap_cons, List.append_nil,
              Bool.false_eq_true]
      · subst hA
        by_cases h0 : algorithms.length = 0
        · simp only [medianScenePanels, hres scene perPixMedianDiff, hinner,
            if_pos h0, if_false, ih idxA0, medianSceneBlockP, List.flatMap_cons,
            List.append_nil, Bool.false_eq_true]
        · simp only [medianScenePanels, hres scene perPixMedianDiff, hinner,
            if_neg h0, if_false, ih (some (algorithms.length - 1)),
            medianSceneBlockP, List.flatMap_cons, List.append_nil,
            Bool.false_eq_true]

/-- Full run on the success path. -/
theorem medianRun_ok (resF : Scene → Algorithm → Image)
    (algoResult : Scene → Algorithm → Except Unit Image)
    (hres : ∀ s a, algoResult s a = .ok (resF s a))
    (s0 : Scene) (rest : List Scene) (algorithms : List Algorithm)
    (subdir : String) (withGtRow : Bool)
    (hA : algorithms.length ≠ 0 ∨ withGtRow = false) :
    plotMedianComparisonsRun algoResult (s0 :: rest) algorithms subdir withGtRow =
      .ok ({ rows := algorithms.length + (if withGtRow then 1 else 0)
             cols := (s0 :: rest).length * 3 + 1
             panels := (s0 :: rest).enum.flatMap (fun p =>
               medianSceneBlockP resF algorithms ((s0 :: rest).length * 3 + 1)
                 (s0 :: rest).length withGtRow p.1 p.2)
             savePath := getPathToFigure
               ("median_comparison_" ++
                 ((s0 :: rest).getLast (List.cons_ne_nil s0 rest)).category)
               subdir }, 0) := by
  simp only [plotMedianComparisonsRun,
    medianScenePanels_ok resF algoResult hres algorithms
      ((s0 :: rest).length * 3 + 1) (s0 :: rest).length withGtRow hA]

/-- Demo pure result lookup. -/
def demoResF : Scene → Algorithm → Image := fun _ _ => demoImage

/-- C4: for exactly 3 scenes and 2 algorithms with `with_gt_row=True`,
`plot_median_comparisons` succeeds with a `(2+1) × (3*3+1)` grid and writes
its one output file (each successful run writes exactly the single
`savePath` of its figure, mirroring the single `save_tight_figure` call of
source line 301) named from the scenes' shared category. -/
theorem median_comparisons_three_scenes_two_algos
    (resF : Scene → Algorithm → Image)
    (algoResult : Scene → Algorithm → Except Unit Image)
    (hres : ∀ s a, algoResult s a = .ok (resF s a))
    (s1 s2 s3 : Scene) (a1 a2 : Algorithm) (c : String)
    (h1 : s1.category = c) (h2 : s2.category = c) (h3 : s3.category = c) :
    ∃ fig,
      plotMedianComparisonsRun algoResult [s1, s2, s3] [a1, a2]
          "per_pix_comparisons" true = .ok (fig, 0) ∧
        fig.rows = 2 + 1 ∧ fig.cols = 3 * 3 + 1 ∧
        fig.savePath =
          getPathToFigure ("median_comparison_" ++ c) "per_pix_comparisons" := by
  refine ⟨_, medianRun_ok resF algoResult hres s1 [s2, s3] [a1, a2]
    "per_pix_comparisons" true (by simp), rfl, rfl, ?_⟩
  exact congrArg
    (fun t => getPathToFigure ("median_comparison_" ++ t) "per_pix_comparisons") h3

/-- C4 witness: three concrete scenes of category "training" and two concrete
algorithms. -/
theorem median_comparisons_three_scenes_two_algos_witness :
    demoScene.category = "training" ∧
      ∃ fig,
        plotMedianComparisonsRun (fun s a => .ok (demoResF s a))
            [demoScene, demoScene, demoScene] [demoAlgo, demoAlgo2]
            "per_pix_comparisons" true = .ok (fig, 0) ∧
          fig.rows = 2 + 1 ∧ fig.cols = 3 * 3 + 1 ∧
          fig.savePath =
            getPathToFigure ("median_comparison_" ++ "training")
              "per_pix_comparisons" :=
  ⟨rfl, median_comparisons_three_scenes_two_algos demoResF _ (fun _ _ => rfl)
    demoScene demoScene demoScene demoAlgo demoAlgo2 "training" rfl rfl rfl⟩

/-- C10: `plot_median_comparisons` raises rather than silently drawing an
empty figure on degenerate inputs: an empty scene list fails at the
`scenes[0]` grid preparation (IndexError), and a nonempty scene list with
`with_gt_row=True` but no algorithms fails at `idx_a += 1` because the row
counter was never bound by the algorithm loop (NameError). -/
theorem median_comparisons_empty_inputs_raise
    (resF : Scene → Algorithm → Image)
    (algoResult : Scene → Algorithm → Except Unit Image)
    (hres : ∀ s a, algoResult s a = .ok (resF s a)) (subdir : String) :
    (∀ (algorithms : List Algorithm) (withGtRow : Bool),
        plotMedianComparisonsRun algoResult [] algorithms subdir withGtRow =
          .error (.indexError, 1)) ∧
    (∀ (s : Scene) (ss : List Scene),
        plotMedianComparisonsRun algoResult (s :: ss) [] subdir true =
          .error (.nameError, 1)) := by
  constructor
  · intro algorithms withGtRow
    rfl
  · intro s ss
    simp only [plotMedianComparisonsRun, medianScenePanels, List.enum,
      List.enumFrom, hres s perPixMedianDiff, medianAlgoPanels, if_pos rfl,
      if_true, List.length_nil]

/-- C10 witness: the two failure modes at concrete inputs. -/
theorem median_comparisons_empty_inputs_raise_witness :
    plotMedianComparisonsRun (fun s a => .ok (demoResF s a)) [] [demoAlgo]
        "per_pix_comparisons" true = .error (.indexError, 1) ∧
      plotMedianComparisonsRun (fun s a => .ok (demoResF s a)) [demoScene] []
        "per_pix_comparisons" true = .error (.nameError, 1) :=
  ⟨(median_comparisons_empty_inputs_raise demoResF _ (fun _ _ => rfl)
      "per_pix_comparisons").1 [demoAlgo] true,
   (median_comparisons_empty_inputs_raise demoResF _ (fun _ _ => rfl)
      "per_pix_comparisons").2 demoScene []⟩

/-- C9 (amended): `plot_median_comparisons` releases its figure on the
successful path — the save routine closes it, leaving 0 figures open — but
when a collaborator raises partway through, the exception propagates with no
cleanup and the figure stays open (1 figure left open on every error path). -/
theorem median_comparisons_figure_release
    (algoResult : Scene → Algorithm → Except Unit Image)
    (scenes : List Scene) (algorithms : List Algorithm)
    (subdir : String) (withGtRow : Bool) :
    (∀ fig n,
        plotMedianComparisonsRun algoResult scenes algorithms subdir withGtRow =
          .ok (fig, n) → n = 0) ∧
    (∀ e n,
        plotMedianComparisonsRun algoResult scenes algorithms subdir withGtRow =
          .error (e, n) → n = 1) := by
  rcases scenes with _ | ⟨s0, rest⟩
  · constructor
    · intro fig n h
      exact absurd h (by simp [plotMedianComparisonsRun])
    · intro e n h
      simp only [plotMedianComparisonsRun, Except.error.injEq, Prod.mk.injEq] at h
      exact h.2.symm
  · constructor
    · intro fig n h
      simp only [plotMedianComparisonsRun] at h
      split at h
      · exact absurd h (by simp)
      · simp only [Except.ok.injEq, Prod.mk.injEq] at h
        exact h.2.symm
    · intro e n h
      simp only [plotMedianComparisonsRun] at h
      split at h
      · simp only [Except.error.injEq, Prod.mk.injEq] at h
        exact h.2.symm
      · exact absurd h (by simp)

/-- C9 witness: a successful concrete run leaves 0 figures open; a failing
concrete run leaves 1. -/
theorem median_comparisons_figure_release_witness :
    (0 : Nat) = 0 ∧ (1 : Nat) = 1 :=
  ⟨(median_comparisons_figure_release (fun s a => .ok (demoResF s a)) [demoScene]
      [demoAlgo] "per_pix_comparisons" true).1 _ 0
      (medianRun_ok demoResF _ (fun _ _ => rfl) demoScene [] [demoAlgo]
        "per_pix_comparisons" true (by simp)),
   (median_comparisons_figure_release (fun _ _ => .error ()) [demoScene]
      [demoAlgo] "per_pix_comparisons" true).2 .lookupError 1 rfl⟩

/-- C9 counterexample: a collaborator failure (here the first
`misc.get_algo_result` lookup) aborts `plot_median_comparisons` with the
already-created figure still open — 1 open figure, not 0, after the failed
call — so release is not guaranteed on all exit paths. -/
theorem median_comparisons_leak_counterexample :
    plotMedianComparisonsRun (fun _ _ => .error ()) [demoScene] [demoAlgo]
        "per_pix_comparisons" true = .error (.lookupError, 1) ∧ (1 : Nat) ≠ 0 :=
  ⟨rfl, by decide⟩

/-! ### Grid-index arithmetic for the discontinuity overview -/

/-- Flat grid indices claimed by `discontBlock` for the algorithm at
enumeration index `idxA` (`npr` abbreviates `n_entries_per_row`). -/
def discontIdxs (npr cols idxA : Nat) : List Nat :=
  let idx := idxA + 1
  let idxRow := (idx / npr) * 2
  let idxCol := idx % npr
  [idxRow * cols + idxCol]
  ++ (if (idx + 1) % npr = 0 then [idxRow * cols + idxCol + 1] else [])
  ++ [(idxRow + 1) * cols + idxCol]
  ++ (if (idx + 1) % npr = 0 then [(idxRow + 1) * cols + idxCol + 1] else [])

/-- The panels of one `discontBlock` claim exactly the indices of
`discontIdxs`. -/
theorem discontBlock_map_idx (algoResult : Scene → Algorithm → Image)
    (scene : Scene) (gt medianResult : Image)
    (nEntriesPerRow cols ymin xmin ww idxA : Nat) (algorithm : Algorithm) :
    (discontBlock algoResult scene gt medianResult nEntriesPerRow cols
        ymin xmin ww idxA algorithm).map Panel.gridIdx =
      discontIdxs nEntriesPerRow cols idxA := by
  by_cases hcb : (idxA + 1 + 1) % nEntriesPerRow = 0 <;>
    simp [discontBlock, discontIdxs, hcb]

/-- The grid indices of the whole discontinuity-overview figure. -/
theorem discont_map_idx (algoResult : Scene → Algorithm → Image)
    (algorithms : List Algorithm) (scene : Scene) (nRows : Nat)
    (subdir : String) (xmin ymin ww : Nat) :
    (plotDiscontOverview algoResult algorithms scene nRows subdir
        xmin ymin ww).panels.map Panel.gridIdx =
      0 :: ((algorithms.length + 1 + (nRows - 1)) / nRows + 1) ::
        (List.range algorithms.length).flatMap
          (discontIdxs ((algorithms.length + 1 + (nRows - 1)) / nRows)
            ((algorithms.length + 1 + (nRows - 1)) / nRows + 1)) := by
  simp only [plotDiscontOverview, List.map_cons, List.map_flatMap,
    discontBlock_map_idx, List.enum]
  rw [enumFrom_flatMap_fst, List.range_eq_range']

/-- Support lemma: a zero remainder for `idx + 1` pins `idx`'s remainder to
the last column `npr - 1`. -/
theorem cb_mod {npr idx : Nat} (hnpr : 0 < npr) (hcb : (idx + 1) % npr = 0) :
    idx % npr = npr - 1 := by
  have hr : idx % npr < npr := Nat.mod_lt _ hnpr
  rcases Nat.lt_or_ge (idx % npr + 1) npr with h | h
  · have h1 : (idx + 1) % npr = idx % npr + 1 := by
      conv_lhs => rw [← Nat.div_add_mod idx npr]
      rw [Nat.add_assoc, Nat.mul_add_mod, Nat.mod_eq_of_lt h]
    omega
  · omega

/-- Support lemma: equal quotients and remainders give equal numbers. -/
theorem divmod_inj {npr a b : Nat} (hq : a / npr = b / npr)
    (hr : a % npr = b % npr) : a = b := by
  rw [← Nat.div_add_mod a npr, ← Nat.div_add_mod b npr, hq, hr]

/-- Shape of every index in `discontIdxs`: a row-major pair whose row is one
of the two super-rows of the entry and whose column is the entry column or,
for a colorbar, the column to its right. -/
theorem discontIdxs_mem {npr cols idxA g : Nat}
    (hg : g ∈ discontIdxs npr cols idxA) :
    ∃ row col,
      g = row * cols + col ∧
      (row = (idxA + 1) / npr * 2 ∨ row = (idxA + 1) / npr * 2 + 1) ∧
      (col = (idxA + 1) % npr ∨
        ((idxA + 1 + 1) % npr = 0 ∧ col = (idxA + 1) % npr + 1)) := by
  by_cases hcb : (idxA + 1 + 1) % npr = 0 <;>
    simp only [discontIdxs, hcb, if_true, if_false, List.singleton_append,
      List.cons_append, List.nil_append, List.append_nil, List.mem_cons,
      List.mem_singleton, List.not_mem_nil, or_false] at hg
  · rcases hg with h | h | h | h
    · exact ⟨_, _, by omega, Or.inl rfl, Or.inl rfl⟩
    · exact ⟨(idxA + 1) / npr * 2, (idxA + 1) % npr + 1, by omega,
        Or.inl rfl, Or.inr ⟨hcb, rfl⟩⟩
    · exact ⟨_, _, by omega, Or.inr rfl, Or.inl rfl⟩
    · exact ⟨(idxA + 1) / npr * 2 + 1, (idxA + 1) % npr + 1, by omega,
        Or.inr rfl, Or.inr ⟨hcb, rfl⟩⟩
  · rcases hg with h | h
    · exact ⟨_, _, by omega, Or.inl rfl, Or.inl rfl⟩
    · exact ⟨_, _, by omega, Or.inr rfl, Or.inl rfl⟩

/-- One algorithm's block never claims a grid cell twice. -/
theorem discontIdxs_nodup {npr idxA : Nat} (hnpr : 0 < npr) :
    (discontIdxs npr (npr + 1) idxA).Nodup := by
  have hr : (idxA + 1) % npr < npr := Nat.mod_lt _ hnpr
  have hmul : ((idxA + 1) / npr * 2 + 1) * (npr + 1) =
      (idxA + 1) / npr * 2 * (npr + 1) + (npr + 1) := by ring
  by_cases hcb : (idxA + 1 + 1) % npr = 0 <;>
    simp only [discontIdxs, hcb, if_true, if_false, List.singleton_append,
      List.cons_append, List.nil_append, List.append_nil, List.nodup_cons,
      List.mem_cons, List.mem_singleton, List.not_mem_nil, List.nodup_nil,
      and_true, not_or, or_false, not_false_eq_true] <;>
    omega

/-- Blocks of distinct algorithms claim disjoint grid cells. -/
theorem discontIdxs_disjoint {npr idxA idxB : Nat} (hnpr : 0 < npr)
    (hne : idxA ≠ idxB) :
    List.Disjoint (discontIdxs npr (npr + 1) idxA)
      (discontIdxs npr (npr + 1) idxB) := by
  intro g hgA hgB
  obtain ⟨row, col, hgeq, hrow, hcol⟩ := discontIdxs_mem hgA
  obtain ⟨row', col', hgeq', hrow', hcol'⟩ := discontIdxs_mem hgB
  have hrA : (idxA + 1) % npr < npr := Nat.mod_lt _ hnpr
  have hrB : (idxB + 1) % npr < npr := Nat.mod_lt _ hnpr
  have hcolb : col < npr + 1 := by rcases hcol with h | h <;> omega
  have hcolb' : col' < npr + 1 := by rcases hcol' with h | h <;> omega
  obtain ⟨he1, he2⟩ := rowcol_inj hcolb hcolb' (hgeq.symm.trans hgeq')
  have hqq : (idxA + 1) / npr = (idxB + 1) / npr := by
    rcases hrow with h | h <;> rcases hrow' with h' | h' <;> omega
  have hrr : (idxA + 1) % npr ≠ (idxB + 1) % npr := by
    intro he
    have heq := divmod_inj hqq he
    exact hne (by omega)
  rcases hcol with h | h <;> rcases hcol' with h' | h'
  · omega
  · have := cb_mod hnpr h'.1
    omega
  · have := cb_mod hnpr h.1
    omega
  · omega

/-- Strict grid bound for a row-major index. -/
theorem grid_lt {rows cols row col : Nat} (hrow : row < rows) (hcol : col < cols) :
    row * cols + col < rows * cols := by
  calc row * cols + col < row * cols + cols := by omega
  _ = (row + 1) * cols := by ring
  _ ≤ rows * cols := Nat.mul_le_mul_right cols hrow

/-- Ceiling division covers the numerator: the entry capacity
`n_rows * n_entries_per_row` is at least `len(algorithms) + 1`. -/
theorem ceil_mul_ge {A nRows : Nat} (h : 0 < nRows) :
    A + 1 ≤ nRows * ((A + 1 + (nRows - 1)) / nRows) := by
  have hd := Nat.div_add_mod (A + 1 + (nRows - 1)) nRows
  have hm : (A + 1 + (nRows - 1)) % nRows < nRows := Nat.mod_lt _ h
  generalize nRows * ((A + 1 + (nRows - 1)) / nRows) = m at hd ⊢
  omega

/-- No algorithm block touches the two reserved head cells `0` (center view)
and `cols` (the MedianDiff label subplot). -/
theorem discontIdxs_head_free {npr idxA g : Nat} (hnpr : 0 < npr)
    (hg : g ∈ discontIdxs npr (npr + 1) idxA) : g ≠ 0 ∧ g ≠ npr + 1 := by
  obtain ⟨row, col, hgeq, hrow, hcol⟩ := discontIdxs_mem hg
  have hr : (idxA + 1) % npr < npr := Nat.mod_lt _ hnpr
  have hcolb : col < npr + 1 := by rcases hcol with h | h <;> omega
  have hda := Nat.div_add_mod (idxA + 1) npr
  constructor
  · intro h0
    obtain ⟨he1, he2⟩ := rowcol_inj hcolb (show (0 : Nat) < npr + 1 by omega)
      (show row * (npr + 1) + col = 0 * (npr + 1) + 0 by omega)
    have hq0 : (idxA + 1) / npr = 0 := by rcases hrow with h | h <;> omega
    have hr0 : (idxA + 1) % npr = 0 := by rcases hcol with h | h <;> omega
    rw [hq0, hr0] at hda
    simp at hda
  · intro h0
    obtain ⟨he1, he2⟩ := rowcol_inj hcolb (show (0 : Nat) < npr + 1 by omega)
      (show row * (npr + 1) + col = 1 * (npr + 1) + 0 by omega)
    have hq0 : (idxA + 1) / npr = 0 := by rcases hrow with h | h <;> omega
    have hr0 : (idxA + 1) % npr = 0 := by rcases hcol with h | h <;> omega
    rw [hq0, hr0] at hda
    simp at hda

/-- The flattened algorithm blocks are duplicate-free. -/
theorem discont_flat_nodup {npr A : Nat} (hnpr : 0 < npr) :
    ((List.range A).flatMap (discontIdxs npr (npr + 1))).Nodup := by
  rw [List.nodup_flatMap]
  refine ⟨fun idxA _ => discontIdxs_nodup hnpr, ?_⟩
  exact (List.pairwise_lt_range A).imp
    (fun h => discontIdxs_disjoint hnpr (Nat.ne_of_lt h))

/-- All grid indices of the discontinuity overview are duplicate-free. -/
theorem discont_indices_nodup {npr A : Nat} (hnpr : 0 < npr) :
    (0 :: (npr + 1) ::
      (List.range A).flatMap (discontIdxs npr (npr + 1))).Nodup := by
  refine List.Nodup.cons ?_ (List.Nodup.cons ?_ (discont_flat_nodup hnpr))
  · intro hmem
    rcases List.mem_cons.1 hmem with h | h
    · omega
    · obtain ⟨idxA, _, hg⟩ := List.mem_flatMap.1 h
      exact (discontIdxs_head_free hnpr hg).1 rfl
  · intro hmem
    obtain ⟨idxA, _, hg⟩ := List.mem_flatMap.1 hmem
    exact (discontIdxs_head_free hnpr hg).2 rfl

/-- Every grid index of an algorithm block lies inside the
`(2*n_rows) × (n_entries_per_row + 1)` grid. -/
theorem discontIdxs_bound {npr A nRows idxA g : Nat} (hnpr : 0 < npr)
    (hA : A + 1 ≤ nRows * npr) (hidx : idxA < A)
    (hg : g ∈ discontIdxs npr (npr + 1) idxA) :
    g < 2 * nRows * (npr + 1) := by
  obtain ⟨row, col, hgeq, hrow, hcol⟩ := discontIdxs_mem hg
  have hr : (idxA + 1) % npr < npr := Nat.mod_lt _ hnpr
  have hq : (idxA + 1) / npr < nRows := by
    rw [Nat.div_lt_iff_lt_mul hnpr]
    have : nRows * npr = npr * nRows := by ring
    omega
  have hrowb : row < 2 * nRows := by rcases hrow with h | h <;> omega
  have hcolb : col < npr + 1 := by rcases hcol with h | h <;> omega
  calc g = row * (npr + 1) + col := hgeq
  _ < 2 * nRows * (npr + 1) := grid_lt hrowb hcolb

/-! ### Grid-index arithmetic for plot_median_comparisons -/

/-- Flat indices claimed for one (scene, algorithm) cell: the three panels
and, in the last scene column, a colorbar. -/
def medianAlgoIdxs (cols idxS nScenes idxA : Nat) : List Nat :=
  [idxA * cols + 3 * idxS, idxA * cols + 3 * idxS + 1, idxA * cols + 3 * idxS + 2]
  ++ (if idxS = nScenes - 1 then [idxA * cols + 3 * idxS + 2 + 1] else [])

/-- Flat indices claimed by one scene column block (algorithm rows and the
optional ground-truth row). -/
def medianSceneIdxs (cols nScenes A : Nat) (withGtRow : Bool) (idxS : Nat) :
    List Nat :=
  (List.range A).flatMap (medianAlgoIdxs cols idxS nScenes)
  ++ (if withGtRow then
        [A * cols + 3 * idxS, A * cols + 3 * idxS + 1]
        ++ (if idxS = nScenes - 1 then [A * cols + 3 * idxS + 2 + 1] else [])
      else [])

/-- Disjointness of an indexed family over a range, from disjointness of the
in-range pairs. -/
theorem pairwise_disjoint_of_lt {β : Type} (f : Nat → List β) (n : Nat)
    (h : ∀ a b, a < b → b < n → List.Disjoint (f a) (f b)) :
    (List.range n).Pairwise (Function.onFun List.Disjoint f) := by
  rw [List.pairwise_iff_getElem]
  intro i j hi hj hij
  simp only [List.getElem_range]
  exact h i j hij (by simpa using hj)

/-- Indices of the algorithm-loop panels. -/
theorem medianAlgoPanelsP_map_idx (resF : Scene → Algorithm → Image)
    (scene : Scene) (gt medianRes : Image) (cols idxS nScenes : Nat) :
    ∀ l, (medianAlgoPanelsP resF scene gt medianRes cols idxS nScenes l).map
        Panel.gridIdx =
      l.flatMap (fun p => medianAlgoIdxs cols idxS nScenes p.1)
  | [] => rfl
  | (idxA, algorithm) :: rest => by
      have ih := medianAlgoPanelsP_map_idx resF scene gt medianRes cols idxS
        nScenes rest
      by_cases hcb : idxS = nScenes - 1
      · simp [medianAlgoPanelsP, medianAlgoIdxs, if_pos hcb, ih]
      · simp [medianAlgoPanelsP, medianAlgoIdxs, if_neg hcb, ih]

/-- Indices of one scene column block. -/
theorem medianSceneBlockP_map_idx (resF : Scene → Algorithm → Image)
    (algorithms : List Algorithm) (cols nScenes : Nat) (withGtRow : Bool)
    (idxS : Nat) (scene : Scene) :
    (medianSceneBlockP resF algorithms cols nScenes withGtRow idxS scene).map
        Panel.gridIdx =
      medianSceneIdxs cols nScenes algorithms.length withGtRow idxS := by
  simp only [medianSceneBlockP, List.map_append,
    medianAlgoPanelsP_map_idx resF scene scene.gt (resF scene perPixMedianDiff)
      cols idxS nScenes algorithms.enum, medianSceneIdxs]
  congr 1
  · rw [show algorithms.enum = List.enumFrom 0 algorithms from rfl,
      enumFrom_flatMap_fst (medianAlgoIdxs cols idxS nScenes) algorithms 0,
      ← List.range_eq_range']
  · cases withGtRow <;> by_cases hcb : idxS = nScenes - 1 <;> simp [hcb]

/-- Indices of the full panel list on the success path. -/
theorem medianPanels_map_idx (resF : Scene → Algorithm → Image)
    (algorithms : List Algorithm) (cols nScenes : Nat) (withGtRow : Bool)
    (l : List Scene) :
    ((l.enum.flatMap (fun p =>
        medianSceneBlockP resF algorithms cols nScenes withGtRow p.1 p.2)).map
          Panel.gridIdx) =
      (List.range l.length).flatMap
        (medianSceneIdxs cols nScenes algorithms.length withGtRow) := by
  rw [List.map_flatMap]
  have hb : ∀ p : Nat × Scene,
      (medianSceneBlockP resF algorithms cols nScenes withGtRow p.1 p.2).map
        Panel.gridIdx =
      medianSceneIdxs cols nScenes algorithms.length withGtRow p.1 :=
    fun p => medianSceneBlockP_map_idx resF algorithms cols nScenes withGtRow p.1 p.2
  simp only [hb]
  rw [show l.enum = List.enumFrom 0 l from rfl,
    enumFrom_flatMap_fst (medianSceneIdxs cols nScenes algorithms.length withGtRow) l 0,
    ← List.range_eq_range']

/-- Shape of the indices of one (scene, algorithm) cell. -/
theorem medianAlgoIdxs_mem {cols idxS nScenes idxA g : Nat}
    (hg : g ∈ medianAlgoIdxs cols idxS nScenes idxA) :
    ∃ c, g = idxA * cols + c ∧ 3 * idxS ≤ c ∧ c ≤ 3 * idxS + 3 := by
  by_cases hcb : idxS = nScenes - 1 <;>
    simp only [medianAlgoIdxs, hcb, if_true, if_false, List.cons_append,
      List.nil_append, List.append_nil, List.mem_cons, List.mem_singleton,
      List.not_mem_nil, or_false] at hg
  · rcases hg with h | h | h | h
    · exact ⟨3 * idxS, by omega, by omega, by omega⟩
    · exact ⟨3 * idxS + 1, by omega, by omega, by omega⟩
    · exact ⟨3 * idxS + 2, by omega, by omega, by omega⟩
    · exact ⟨3 * idxS + 3, by omega, by omega, by omega⟩
  · rcases hg with h | h | h
    · exact ⟨3 * idxS, by omega, by omega, by omega⟩
    · exact ⟨3 * idxS + 1, by omega, by omega, by omega⟩
    · exact ⟨3 * idxS + 2, by omega, by omega, by omega⟩

/-- One (scene, algorithm) cell claims no index twice. -/
theorem medianAlgoIdxs_nodup {cols idxS nScenes idxA : Nat} :
    (medianAlgoIdxs cols idxS nScenes idxA).Nodup := by
  by_cases hcb : idxS = nScenes - 1 <;>
    simp only [medianAlgoIdxs, hcb, if_true, if_false, List.cons_append,
      List.nil_append, List.append_nil, List.nodup_cons, List.mem_cons,
      List.mem_singleton, List.not_mem_nil, List.nodup_nil, and_true, not_or,
      or_false, not_false_eq_true] <;>
    omega

/-- Cells of distinct algorithm rows are disjoint. -/
theorem medianAlgoIdxs_disjoint {cols idxS nScenes idxA idxB : Nat}
    (hS3 : 3 * idxS + 3 < cols) (hne : idxA ≠ idxB) :
    List.Disjoint (medianAlgoIdxs cols idxS nScenes idxA)
      (medianAlgoIdxs cols idxS nScenes idxB) := by
  intro g hgA hgB
  obtain ⟨c, hgc, hc1, hc2⟩ := medianAlgoIdxs_mem hgA
  obtain ⟨c', hgc', hc1', hc2'⟩ := medianAlgoIdxs_mem hgB
  obtain ⟨he1, _⟩ := rowcol_inj (show c < cols by omega) (show c' < cols by omega)
    (hgc.symm.trans hgc')
  exact hne he1

/-- Shape of the indices of one scene column block. -/
theorem medianSceneIdxs_mem {cols nScenes A idxS g : Nat} {w : Bool}
    (hg : g ∈ medianSceneIdxs cols nScenes A w idxS) :
    ∃ a c, g = a * cols + c ∧
      (a < A ∨ (w = true ∧ a = A)) ∧
      (c = 3 * idxS ∨ c = 3 * idxS + 1 ∨ (a < A ∧ c = 3 * idxS + 2) ∨
        (idxS = nScenes - 1 ∧ c = 3 * idxS + 2 + 1)) := by
  simp only [medianSceneIdxs, List.mem_append] at hg
  rcases hg with hg | hg
  · obtain ⟨idxA, hidxA, hgA⟩ := List.mem_flatMap.1 hg
    have hA : idxA < A := List.mem_range.1 hidxA
    by_cases hcb : idxS = nScenes - 1 <;>
      simp only [medianAlgoIdxs, hcb, if_true, if_false, List.cons_append,
        List.nil_append, List.append_nil, List.mem_cons, List.mem_singleton,
        List.not_mem_nil, or_false] at hgA
    · rcases hgA with h | h | h | h
      · exact ⟨idxA, 3 * idxS, by omega, Or.inl hA, Or.inl rfl⟩
      · exact ⟨idxA, 3 * idxS + 1, by omega, Or.inl hA, Or.inr (Or.inl rfl)⟩
      · exact ⟨idxA, 3 * idxS + 2, by omega, Or.inl hA,
          Or.inr (Or.inr (Or.inl ⟨hA, rfl⟩))⟩
      · exact ⟨idxA, 3 * idxS + 2 + 1, by omega, Or.inl hA,
          Or.inr (Or.inr (Or.inr ⟨hcb, rfl⟩))⟩
    · rcases hgA with h | h | h
      · exact ⟨idxA, 3 * idxS, by omega, Or.inl hA, Or.inl rfl⟩
      · exact ⟨idxA, 3 * idxS + 1, by omega, Or.inl hA, Or.inr (Or.inl rfl)⟩
      · exact ⟨idxA, 3 * idxS + 2, by omega, Or.inl hA,
          Or.inr (Or.inr (Or.inl ⟨hA, rfl⟩))⟩
  · cases w with
    | false => simp at hg
    | true =>
      simp only [if_true] at hg
      by_cases hcb : idxS = nScenes - 1 <;>
        simp only [hcb, if_true, if_false, List.cons_append, List.nil_append,
          List.append_nil, List.mem_cons, List.mem_singleton, List.not_mem_nil,
          or_false] at hg
      · rcases hg with h | h | h
        · exact ⟨A, 3 * idxS, by omega, Or.inr ⟨rfl, rfl⟩, Or.inl rfl⟩
        · exact ⟨A, 3 * idxS + 1, by omega, Or.inr ⟨rfl, rfl⟩,
            Or.inr (Or.inl rfl)⟩
        · exact ⟨A, 3 * idxS + 2 + 1, by omega, Or.inr ⟨rfl, rfl⟩,
            Or.inr (Or.inr (Or.inr ⟨hcb, rfl⟩))⟩
      · rcases hg with h | h
        · exact ⟨A, 3 * idxS, by omega, Or.inr ⟨rfl, rfl⟩, Or.inl rfl⟩
        · exact ⟨A, 3 * idxS + 1, by omega, Or.inr ⟨rfl, rfl⟩,
            Or.inr (Or.inl rfl)⟩

/-- Shape of the indices of the ground-truth reference row in one scene
column. -/
theorem medianGtRowIdxs_mem {cols nScenes A idxS g : Nat}
    (hg : g ∈ [A * cols + 3 * idxS, A * cols + 3 * idxS + 1]
        ++ (if idxS = nScenes - 1 then [A * cols + 3 * idxS + 2 + 1] else [])) :
    ∃ c, g = A * cols + c ∧ 3 * idxS ≤ c ∧ c ≤ 3 * idxS + 3 := by
  by_cases hcb : idxS = nScenes - 1 <;>
    simp only [hcb, if_true, if_false, List.cons_append, List.nil_append,
      List.append_nil, List.mem_cons, List.mem_singleton, List.not_mem_nil,
      or_false] at hg
  · rcases hg with h | h | h
    · exact ⟨3 * idxS, by omega, by omega, by omega⟩
    · exact ⟨3 * idxS + 1, by omega, by omega, by omega⟩
    · exact ⟨3 * idxS + 3, by omega, by omega, by omega⟩
  · rcases hg with h | h
    · exact ⟨3 * idxS, by omega, by omega, by omega⟩
    · exact ⟨3 * idxS + 1, by omega, by omega, by omega⟩

/-- One scene column block claims no index twice. -/
theorem medianSceneIdxs_nodup {cols nScenes A idxS : Nat} {w : Bool}
    (hcols : cols = 3 * nScenes + 1) (hS : idxS < nScenes) :
    (medianSceneIdxs cols nScenes A w idxS).Nodup := by
  have hS3 : 3 * idxS + 3 < cols := by omega
  refine List.Nodup.append ?_ ?_ ?_
  · rw [List.nodup_flatMap]
    exact ⟨fun _ _ => medianAlgoIdxs_nodup,
      (List.pairwise_lt_range A).imp
        (fun h => medianAlgoIdxs_disjoint hS3 (Nat.ne_of_lt h))⟩
  · by_cases hw : w = true
    · rw [if_pos hw]
      by_cases hcb : idxS = nScenes - 1
      · rw [if_pos hcb]
        simp only [List.cons_append, List.nil_append, List.nodup_cons,
          List.mem_cons, List.mem_singleton, List.not_mem_nil, List.nodup_nil,
          and_true, not_or, not_false_eq_true, or_false]
        omega
      · rw [if_neg hcb]
        simp only [List.cons_append, List.nil_append, List.append_nil,
          List.nodup_cons, List.mem_cons, List.mem_singleton, List.not_mem_nil,
          List.nodup_nil, and_true, not_or, not_false_eq_true, or_false]
        omega
    · rw [if_neg hw]
      exact List.nodup_nil
  · intro g hg1 hg2
    obtain ⟨idxA, hidxA, hgA⟩ := List.mem_flatMap.1 hg1
    obtain ⟨c, hgc, hc1, hc2⟩ := medianAlgoIdxs_mem hgA
    have hA : idxA < A := List.mem_range.1 hidxA
    by_cases hw : w = true
    · rw [if_pos hw] at hg2
      obtain ⟨c', hgc', hc1', hc2'⟩ := medianGtRowIdxs_mem hg2
      obtain ⟨he1, _⟩ := rowcol_inj (show c < cols by omega)
        (show c' < cols by omega) (hgc.symm.trans hgc')
      omega
    · rw [if_neg hw] at hg2
      exact List.not_mem_nil _ hg2

/-- Blocks of distinct scene columns claim disjoint grid cells. -/
theorem medianSceneIdxs_disjoint {cols nScenes A idxS idxT : Nat} {w : Bool}
    (hcols : cols = 3 * nScenes + 1) (hS : idxS < nScenes) (hT : idxT < nScenes)
    (hne : idxS ≠ idxT) :
    List.Disjoint (medianSceneIdxs cols nScenes A w idxS)
      (medianSceneIdxs cols nScenes A w idxT) := by
  intro g hg1 hg2
  obtain ⟨a, c, hg, ha, hc⟩ := medianSceneIdxs_mem hg1
  obtain ⟨a', c', hg', ha', hc'⟩ := medianSceneIdxs_mem hg2
  have hcb : c < cols := by
    rcases hc with h | h | ⟨h1, h2⟩ | ⟨h1, h2⟩ <;> omega
  have hcb' : c' < cols := by
    rcases hc' with h | h | ⟨h1, h2⟩ | ⟨h1, h2⟩ <;> omega
  obtain ⟨_, he2⟩ := rowcol_inj hcb hcb' (hg.symm.trans hg')
  rcases hc with h | h | ⟨h1, h2⟩ | ⟨h1, h2⟩ <;>
    rcases hc' with h' | h' | ⟨h1', h2'⟩ | ⟨h1', h2'⟩ <;> omega

/-- All grid indices of the median-comparison figure are duplicate-free. -/
theorem median_indices_nodup {cols nScenes A : Nat} {w : Bool}
    (hcols : cols = 3 * nScenes + 1) :
    ((List.range nScenes).flatMap (medianSceneIdxs cols nScenes A w)).Nodup := by
  rw [List.nodup_flatMap]
  refine ⟨fun idxS hSm => medianSceneIdxs_nodup hcols (List.mem_range.1 hSm), ?_⟩
  exact pairwise_disjoint_of_lt _ _ (fun a b hab hb =>
    medianSceneIdxs_disjoint hcols (by omega) hb (by omega))

/-- Every grid index of a scene column block lies inside the
`(len(algorithms) + int(with_gt_row)) × (3*len(scenes) + 1)` grid. -/
theorem medianSceneIdxs_bound {cols nScenes A idxS g : Nat} {w : Bool}
    (hcols : cols = 3 * nScenes + 1) (hS : idxS < nScenes)
    (hg : g ∈ medianSceneIdxs cols nScenes A w idxS) :
    g < (A + (if w then 1 else 0)) * cols := by
  obtain ⟨a, c, hgeq, ha, hc⟩ := medianSceneIdxs_mem hg
  have hcb : c < cols := by
    rcases hc with h | h | ⟨h1, h2⟩ | ⟨h1, h2⟩ <;> omega
  have harow : a < A + (if w then 1 else 0) := by
    rcases ha with h | ⟨h1, h2⟩
    · by_cases hw : w = true
      · simp [hw]
        omega
      · simp [hw] at h ⊢
        omega
    · rw [h1, h2]
      simp
  calc g = a * cols + c := hgeq
  _ < (A + (if w then 1 else 0)) * cols := grid_lt harow hcb

/-- Bounds and distinctness of all grid indices of the discontinuity
overview. -/
theorem discont_half (algoResultP : Scene → Algorithm → Image)
    (algorithms : List Algorithm) (scene : Scene) (nRows : Nat)
    (subdir : String) (xmin ymin ww : Nat) (hn : 1 ≤ nRows) :
    (∀ p ∈ (plotDiscontOverview algoResultP algorithms scene nRows subdir
        xmin ymin ww).panels,
        p.gridIdx <
          (plotDiscontOverview algoResultP algorithms scene nRows subdir
            xmin ymin ww).rows *
          (plotDiscontOverview algoResultP algorithms scene nRows subdir
            xmin ymin ww).cols) ∧
    ((plotDiscontOverview algoResultP algorithms scene nRows subdir
        xmin ymin ww).panels.map Panel.gridIdx).Nodup := by
  have hnpr : 0 < (algorithms.length + 1 + (nRows - 1)) / nRows :=
    (Nat.one_le_div_iff (by omega)).2 (by omega)
  have hcap : algorithms.length + 1 ≤
      nRows * ((algorithms.length + 1 + (nRows - 1)) / nRows) :=
    ceil_mul_ge (by omega)
  have hmap := discont_map_idx algoResultP algorithms scene nRows subdir
    xmin ymin ww
  have hrows : (plotDiscontOverview algoResultP algorithms scene nRows subdir
      xmin ymin ww).rows = 2 * nRows := rfl
  have hcols : (plotDiscontOverview algoResultP algorithms scene nRows subdir
      xmin ymin ww).cols = (algorithms.length + 1 + (nRows - 1)) / nRows + 1 :=
    rfl
  constructor
  · intro p hp
    have hgmem := List.mem_map_of_mem Panel.gridIdx hp
    rw [hmap] at hgmem
    rw [hrows, hcols]
    rcases List.mem_cons.1 hgmem with h | h
    · rw [h]
      exact Nat.mul_pos (by omega) (by omega)
    · rcases List.mem_cons.1 h with h | h
      · rw [h]
        have := grid_lt (show 1 < 2 * nRows by omega)
          (show 0 < (algorithms.length + 1 + (nRows - 1)) / nRows + 1 by omega)
        simpa using this
      · obtain ⟨idxA, hidxA, hg⟩ := List.mem_flatMap.1 h
        exact discontIdxs_bound hnpr hcap (List.mem_range.1 hidxA) hg
  · rw [hmap]
    exact discont_indices_nodup hnpr

/-- Bounds and distinctness of all grid indices of a successful
median-comparison run. -/
theorem median_half (resF : Scene → Algorithm → Image)
    (algoResult : Scene → Algorithm → Except Unit Image)
    (hres : ∀ s a, algoResult s a = .ok (resF s a))
    (s0 : Scene) (rest : List Scene) (a0 : Algorithm) (arest : List Algorithm)
    (subdir : String) (withGtRow : Bool) (fig : FigureSpec) (n : Nat)
    (hrun : plotMedianComparisonsRun algoResult (s0 :: rest) (a0 :: arest)
        subdir withGtRow = .ok (fig, n)) :
    (∀ p ∈ fig.panels, p.gridIdx < fig.rows * fig.cols) ∧
    (fig.panels.map Panel.gridIdx).Nodup := by
  have hok := medianRun_ok resF algoResult hres s0 rest (a0 :: arest) subdir
    withGtRow (Or.inl (by simp))
  have he := Except.ok.inj (hok.symm.trans hrun)
  injection he with he1 he2
  subst he1
  have hmap := medianPanels_map_idx resF (a0 :: arest)
    ((s0 :: rest).length * 3 + 1) (s0 :: rest).length withGtRow (s0 :: rest)
  constructor
  · intro p hp
    have hgmem := List.mem_map_of_mem Panel.gridIdx hp
    rw [show ({ rows := (a0 :: arest).length + (if withGtRow then 1 else 0)
                cols := (s0 :: rest).length * 3 + 1
                panels := (s0 :: rest).enum.flatMap (fun p =>
                  medianSceneBlockP resF (a0 :: arest)
                    ((s0 :: rest).length * 3 + 1) (s0 :: rest).length
                    withGtRow p.1 p.2)
                savePath := getPathToFigure
                  ("median_comparison_" ++
                    ((s0 :: rest).getLast (List.cons_ne_nil s0 rest)).category)
                  subdir } : FigureSpec).panels =
        (s0 :: rest).enum.flatMap (fun p =>
          medianSceneBlockP resF (a0 :: arest) ((s0 :: rest).length * 3 + 1)
            (s0 :: rest).length withGtRow p.1 p.2) from rfl,
      hmap] at hgmem
    obtain ⟨idxS, hidxS, hg⟩ := List.mem_flatMap.1 hgmem
    exact medianSceneIdxs_bound (by ring) (List.mem_range.1 hidxS) hg
  · rw [show ({ rows := (a0 :: arest).length + (if withGtRow then 1 else 0)
                cols := (s0 :: rest).length * 3 + 1
                panels := (s0 :: rest).enum.flatMap (fun p =>
                  medianSceneBlockP resF (a0 :: arest)
                    ((s0 :: rest).length * 3 + 1) (s0 :: rest).length
                    withGtRow p.1 p.2)
                savePath := getPathToFigure
                  ("median_comparison_" ++
                    ((s0 :: rest).getLast (List.cons_ne_nil s0 rest)).category)
                  subdir } : FigureSpec).panels =
        (s0 :: rest).enum.flatMap (fun p =>
          medianSceneBlockP resF (a0 :: arest) ((s0 :: rest).length * 3 + 1)
            (s0 :: rest).length withGtRow p.1 p.2) from rfl,
      hmap]
    exact median_indices_nodup (by ring)

/-- C3: in `plot_discont_overview` (for every algorithm list, scene and
`n_rows ≥ 1`) and in `plot_median_comparisons` (for every non-empty scene and
algorithm list on its success path), every computed subplot index — those
derived from the Python-2 integer division
`idx_row = (idx / n_entries_per_row) * n_vis_types` and the colorbar indices
included — is a natural number in `[0, rows*cols)`, and no two distinct
panels are assigned the same flat grid index. -/
theorem grid_indices_tile_without_overlap :
    (∀ (algoResultP : Scene → Algorithm → Image) (algorithms : List Algorithm)
        (scene : Scene) (nRows : Nat) (subdir : String) (xmin ymin ww : Nat),
        1 ≤ nRows →
        (∀ p ∈ (plotDiscontOverview algoResultP algorithms scene nRows subdir
            xmin ymin ww).panels,
            p.gridIdx <
              (plotDiscontOverview algoResultP algorithms scene nRows subdir
                xmin ymin ww).rows *
                (plotDiscontOverview algoResultP algorithms scene nRows subdir
                  xmin ymin ww).cols) ∧
        ((plotDiscontOverview algoResultP algorithms scene nRows subdir
            xmin ymin ww).panels.map Panel.gridIdx).Nodup) ∧
    (∀ (resF : Scene → Algorithm → Image)
        (algoResult : Scene → Algorithm → Except Unit Image),
        (∀ s a, algoResult s a = Except.ok (resF s a)) →
        ∀ (s0 : Scene) (rest : List Scene) (a0 : Algorithm)
          (arest : List Algorithm) (subdir : String) (withGtRow : Bool)
          (fig : FigureSpec) (n : Nat),
          plotMedianComparisonsRun algoResult (s0 :: rest) (a0 :: arest) subdir
              withGtRow = Except.ok (fig, n) →
          (∀ p ∈ fig.panels, p.gridIdx < fig.rows * fig.cols) ∧
          (fig.panels.map Panel.gridIdx).Nodup) :=
  ⟨discont_half,
   fun resF algoResult hres s0 rest a0 arest subdir withGtRow fig n hrun =>
     median_half resF algoResult hres s0 rest a0 arest subdir withGtRow fig n
       hrun⟩

/-- Concrete figure produced by the demo median-comparison run (1 scene,
1 algorithm, ground-truth row). -/
def demoMedianFig : FigureSpec :=
  { rows := [demoAlgo].length + (if true then 1 else 0)
    cols := [demoScene].length * 3 + 1
    panels := [demoScene].enum.flatMap (fun p =>
      medianSceneBlockP demoResF [demoAlgo] ([demoScene].length * 3 + 1)
        [demoScene].length true p.1 p.2)
    savePath := getPathToFigure
      ("median_comparison_" ++
        ([demoScene].getLast (List.cons_ne_nil demoScene [])).category)
      "per_pix_comparisons" }

/-- C3 witness: both figures at concrete inputs have duplicate-free grid
indices. -/
theorem grid_indices_tile_without_overlap_witness :
    ((plotDiscontOverview demoResF [demoAlgo] demoScene 2 "overview"
        150 230 250).panels.map Panel.gridIdx).Nodup ∧
      (demoMedianFig.panels.map Panel.gridIdx).Nodup :=
  ⟨(grid_indices_tile_without_overlap.1 demoResF [demoAlgo] demoScene 2
      "overview" 150 230 250 (by omega)).2,
   (grid_indices_tile_without_overlap.2 demoResF (fun s a => .ok (demoResF s a))
      (fun _ _ => rfl) demoScene [] demoAlgo [] "per_pix_comparisons" true
      demoMedianFig 0
      (medianRun_ok demoResF (fun s a => .ok (demoResF s a)) (fun _ _ => rfl)
        demoScene [] [demoAlgo] "per_pix_comparisons" true
        (Or.inl (by simp)))).2⟩

/-- Second components of an enumeration are list members. -/
theorem mem_enumFrom_snd {α : Type} :
    ∀ {l : List α} {n : Nat} {p : Nat × α}, p ∈ List.enumFrom n l → p.2 ∈ l
  | [], _, _ => by
      intro h
      simp [List.enumFrom] at h
  | x :: xs, n, p => by
      intro h
      rcases List.mem_cons.1 h with h | h
      · subst h
        exact List.mem_cons_self _ _
      · exact List.mem_cons_of_mem _ (mem_enumFrom_snd h)

/-- The algorithm-loop panels as a flat map over the enumerated list. -/
theorem medianAlgoPanelsP_eq (resF : Scene → Algorithm → Image) (scene : Scene)
    (gt medianRes : Image) (cols idxS nScenes : Nat) :
    ∀ l, medianAlgoPanelsP resF scene gt medianRes cols idxS nScenes l =
      l.flatMap (fun q =>
        [⟨q.1 * cols + 3 * idxS, .imshowDisp (resF scene q.2)⟩,
         ⟨q.1 * cols + 3 * idxS + 1,
           .imshowDiff (fun i j => gt i j - resF scene q.2 i j) (-(1/10)) (1/10)⟩,
         ⟨q.1 * cols + 3 * idxS + 2,
           .imshowRdYlGn
             (fun i j => |medianRes i j - gt i j| - |resF scene q.2 i j - gt i j|)
             (-(1/20)) (1/20)⟩]
        ++ (if idxS = nScenes - 1
            then [⟨q.1 * cols + 3 * idxS + 2 + 1, .colorbar⟩] else []))
  | [] => rfl
  | (idxA, algorithm) :: rest => by
      simp only [medianAlgoPanelsP, List.flatMap_cons,
        medianAlgoPanelsP_eq resF scene gt medianRes cols idxS nScenes rest]

/-- Every diverging-scale panel of the discontinuity overview carries the
median-diff formula on the crop window and the ±0.05 clip. -/
theorem discont_rdylgn_formula (algoResultP : Scene → Algorithm → Image)
    (algorithms : List Algorithm) (scene : Scene) (nRows : Nat)
    (subdir : String) (xmin ymin ww : Nat) :
    ∀ p ∈ (plotDiscontOverview algoResultP algorithms scene nRows subdir
        xmin ymin ww).panels,
      ∀ img vmin vmax, p.content = PanelContent.imshowRdYlGn img vmin vmax →
        vmin = -(1/20) ∧ vmax = 1/20 ∧
        ∃ a ∈ algorithms, ∀ i j, i < ww → j < ww →
          img i j =
            |algoResultP scene perPixMedianDiff (ymin + i) (xmin + j) -
              scene.gt (ymin + i) (xmin + j)| -
            |algoResultP scene a (ymin + i) (xmin + j) -
              scene.gt (ymin + i) (xmin + j)| := by
  intro p hp img vmin vmax hc
  simp only [plotDiscontOverview, List.mem_cons] at hp
  rcases hp with hp | hp | hp
  · subst hp
    simp at hc
  · subst hp
    simp at hc
  · obtain ⟨pr, hpr, hp⟩ := List.mem_flatMap.1 hp
    have ha : pr.2 ∈ algorithms :=
      mem_enumFrom_snd (by simpa [List.enum] using hpr)
    by_cases hcb : (pr.1 + 1 + 1) %
        ((algorithms.length + 1 + (nRows - 1)) / nRows) = 0
    · simp only [discontBlock, hcb, if_true, List.cons_append, List.nil_append,
        List.append_nil, List.singleton_append, List.mem_cons,
        List.mem_singleton, List.not_mem_nil, or_false] at hp
      rcases hp with hp | hp | hp | hp <;> subst hp
      · simp at hc
      · simp at hc
      · simp only [PanelContent.imshowRdYlGn.injEq] at hc
        obtain ⟨himg, hvmin, hvmax⟩ := hc
        refine ⟨hvmin.symm, hvmax.symm, pr.2, ha, fun i j hi hj => ?_⟩
        rw [← himg]
        simp [npSlice, hi, hj]
      · simp at hc
    · simp only [discontBlock, hcb, if_false, List.cons_append, List.nil_append,
        List.append_nil, List.singleton_append, List.mem_cons,
        List.mem_singleton, List.not_mem_nil, or_false] at hp
      rcases hp with hp | hp <;> subst hp
      · simp at hc
      · simp only [PanelContent.imshowRdYlGn.injEq] at hc
        obtain ⟨himg, hvmin, hvmax⟩ := hc
        refine ⟨hvmin.symm, hvmax.symm, pr.2, ha, fun i j hi hj => ?_⟩
        rw [← himg]
        simp [npSlice, hi, hj]

/-- Every diverging-scale panel of a median-comparison run carries the
median-diff formula and the ±0.05 clip. -/
theorem median_rdylgn_formula (resF : Scene → Algorithm → Image)
    (algoResult : Scene → Algorithm → Except Unit Image)
    (hres : ∀ s a, algoResult s a = Except.ok (resF s a))
    (scenes : List Scene) (algorithms : List Algorithm)
    (subdir : String) (withGtRow : Bool) (fig : FigureSpec) (n : Nat)
    (hrun : plotMedianComparisonsRun algoResult scenes algorithms subdir
        withGtRow = Except.ok (fig, n)) :
    ∀ p ∈ fig.panels, ∀ img vmin vmax,
      p.content = PanelContent.imshowRdYlGn img vmin vmax →
      vmin = -(1/20) ∧ vmax = 1/20 ∧
      ∃ s ∈ scenes, ∃ a ∈ algorithms, ∀ i j,
        img i j = |resF s perPixMedianDiff i j - s.gt i j| -
          |resF s a i j - s.gt i j| := by
  rcases scenes with _ | ⟨s0, rest⟩
  · exact absurd hrun (by simp [plotMedianComparisonsRun])
  have hA : algorithms.length ≠ 0 ∨ withGtRow = false := by
    rcases algorithms with _ | ⟨a0, arest⟩
    · cases withGtRow with
      | false => exact Or.inr rfl
      | true =>
          exfalso
          simp only [plotMedianComparisonsRun, medianScenePanels, List.enum,
            List.enumFrom, hres s0 perPixMedianDiff, medianAlgoPanels,
            List.length_nil, if_pos rfl, if_true] at hrun
          exact Except.noConfusion hrun
    · exact Or.inl (by simp)
  have hok := medianRun_ok resF algoResult hres s0 rest algorithms subdir
    withGtRow hA
  have he := Except.ok.inj (hok.symm.trans hrun)
  injection he with he1 he2
  subst he1
  intro p hp img vmin vmax hc
  have hp2 : p ∈ (s0 :: rest).enum.flatMap (fun pr =>
      medianSceneBlockP resF algorithms ((s0 :: rest).length * 3 + 1)
        (s0 :: rest).length withGtRow pr.1 pr.2) := hp
  obtain ⟨pr, hpr, hpB⟩ := List.mem_flatMap.1 hp2
  have hsmem : pr.2 ∈ s0 :: rest :=
    mem_enumFrom_snd (by simpa [List.enum] using hpr)
  rw [medianSceneBlockP] at hpB
  rcases List.mem_append.1 hpB with hpB | hpB
  · -- algorithm-loop panels
    rw [medianAlgoPanelsP_eq] at hpB
    obtain ⟨qr, hqr, hq⟩ := List.mem_flatMap.1 hpB
    have hamem : qr.2 ∈ algorithms :=
      mem_enumFrom_snd (by simpa [List.enum] using hqr)
    by_cases hcb : pr.1 = (s0 :: rest).length - 1
    · simp only [if_pos hcb, List.cons_append, List.nil_append,
        List.append_nil, List.mem_cons, List.mem_singleton, List.not_mem_nil,
        or_false] at hq
      rcases hq with hq | hq | hq | hq <;> subst hq
      · simp at hc
      · simp at hc
      · simp only [PanelContent.imshowRdYlGn.injEq] at hc
        obtain ⟨himg, hvmin, hvmax⟩ := hc
        exact ⟨hvmin.symm, hvmax.symm, pr.2, hsmem, qr.2, hamem,
          fun i j => by rw [← himg]⟩
      · simp at hc
    · simp only [if_neg hcb, List.cons_append, List.nil_append,
        List.append_nil, List.mem_cons, List.mem_singleton, List.not_mem_nil,
        or_false] at hq
      rcases hq with hq | hq | hq <;> subst hq
      · simp at hc
      · simp at hc
      · simp only [PanelContent.imshowRdYlGn.injEq] at hc
        obtain ⟨himg, hvmin, hvmax⟩ := hc
        exact ⟨hvmin.symm, hvmax.symm, pr.2, hsmem, qr.2, hamem,
          fun i j => by rw [← himg]⟩
  · -- ground-truth reference row
    by_cases hw : withGtRow = true
    · rw [if_pos hw] at hpB
      by_cases hcb : pr.1 = (s0 :: rest).length - 1
      · simp only [if_pos hcb, List.cons_append, List.nil_append,
          List.append_nil, List.mem_cons, List.mem_singleton, List.not_mem_nil,
          or_false] at hpB
        rcases hpB with hq | hq | hq <;> subst hq <;> simp at hc
      · simp only [if_neg hcb, List.cons_append, List.nil_append,
          List.append_nil, List.mem_cons, List.mem_singleton, List.not_mem_nil,
          or_false] at hpB
        rcases hpB with hq | hq <;> subst hq <;> simp at hc
    · rw [if_neg hw] at hpB
      exact absurd hpB (List.not_mem_nil _)


/-- Enumeration contains each list element paired with its own index. -/
theorem enumFrom_get_mem {α : Type} :
    ∀ (l : List α) (n i : Nat) (h : i < l.length),
      (n + i, l.get ⟨i, h⟩) ∈ List.enumFrom n l
  | x :: xs, n, 0, _ => by
      simp [List.enumFrom]
  | x :: xs, n, i + 1, h => by
      have ih := enumFrom_get_mem xs (n + 1) i (by simpa using h)
      simp only [List.enumFrom, List.get]
      exact List.mem_cons_of_mem _
        (by simpa [Nat.add_assoc, Nat.add_comm 1 i] using ih)

/-- The discontinuity overview contains, for each algorithm, that
algorithm's own median-diff panel at the grid cell derived from its
enumeration index. -/
theorem discont_pair_panel_mem (algoResultP : Scene → Algorithm → Image)
    (algorithms : List Algorithm) (scene : Scene) (nRows : Nat)
    (subdir : String) (xmin ymin ww : Nat) (idxA : Nat)
    (h : idxA < algorithms.length) :
    (⟨((idxA + 1) / ((algorithms.length + 1 + (nRows - 1)) / nRows) * 2 + 1) *
          ((algorithms.length + 1 + (nRows - 1)) / nRows + 1) +
        (idxA + 1) % ((algorithms.length + 1 + (nRows - 1)) / nRows),
      .imshowRdYlGn
        (npSlice (fun i j =>
            |algoResultP scene perPixMedianDiff i j - scene.gt i j| -
            |algoResultP scene (algorithms.get ⟨idxA, h⟩) i j - scene.gt i j|)
          ymin xmin ww)
        (-(1/20)) (1/20)⟩ : Panel) ∈
      (plotDiscontOverview algoResultP algorithms scene nRows subdir
        xmin ymin ww).panels := by
  refine List.mem_cons_of_mem _ (List.mem_cons_of_mem _ (List.mem_flatMap.2
    ⟨(idxA, algorithms.get ⟨idxA, h⟩),
     by simpa [List.enum] using enumFrom_get_mem algorithms 0 idxA h, ?_⟩))
  by_cases hcb : (idxA + 1 + 1) %
      ((algorithms.length + 1 + (nRows - 1)) / nRows) = 0
  · simp only [discontBlock, if_pos hcb, List.singleton_append,
      List.cons_append, List.nil_append, List.append_nil]
    exact List.Mem.tail _ (List.Mem.tail _ (List.Mem.head _))
  · simp only [discontBlock, if_neg hcb, List.singleton_append,
      List.cons_append, List.nil_append, List.append_nil]
    exact List.Mem.tail _ (List.Mem.head _)

/-- The success-path panels of the median comparisons contain, for each
(scene, algorithm) pair, that pair's own median-diff panel at grid cell
`idx_a*cols + 3*idx_s + 2`. -/
theorem median_pair_panel_mem (resF : Scene → Algorithm → Image)
    (algorithms : List Algorithm) (cols nScenes : Nat) (withGtRow : Bool)
    (scenes : List Scene) (idxS : Nat) (hS : idxS < scenes.length)
    (idxA : Nat) (hA : idxA < algorithms.length) :
    (⟨idxA * cols + 3 * idxS + 2,
      .imshowRdYlGn
        (fun i j =>
          |resF (scenes.get ⟨idxS, hS⟩) perPixMedianDiff i j -
              (scenes.get ⟨idxS, hS⟩).gt i j| -
          |resF (scenes.get ⟨idxS, hS⟩) (algorithms.get ⟨idxA, hA⟩) i j -
              (scenes.get ⟨idxS, hS⟩).gt i j|)
        (-(1/20)) (1/20)⟩ : Panel) ∈
      scenes.enum.flatMap (fun p =>
        medianSceneBlockP resF algorithms cols nScenes withGtRow p.1 p.2) := by
  refine List.mem_flatMap.2 ⟨(idxS, scenes.get ⟨idxS, hS⟩),
    by simpa [List.enum] using enumFrom_get_mem scenes 0 idxS hS, ?_⟩
  rw [medianSceneBlockP]
  refine List.mem_append.2 (Or.inl ?_)
  rw [medianAlgoPanelsP_eq]
  refine List.mem_flatMap.2 ⟨(idxA, algorithms.get ⟨idxA, hA⟩),
    by simpa [List.enum] using enumFrom_get_mem algorithms 0 idxA hA, ?_⟩
  refine List.mem_append.2 (Or.inl ?_)
  exact List.Mem.tail _ (List.Mem.tail _ (List.Mem.head _))

/-- C1: in both `plot_discont_overview` and `plot_median_comparisons`, for
every scene and algorithm the rendered median-diff panel of that very
(scene, algorithm) pair — at its own grid cell — shows exactly
`|median_result - gt| - |algo_result - gt|` computed pixel-wise (over the
crop window in the discontinuity overview), rendered with the diverging
RdYlGn scale clipped to `vmin = -0.05`, `vmax = 0.05`; and conversely every
panel drawn with that diverging scale is such a median-diff map of one of
the input pairs.  A positive value at a pixel means the algorithm's absolute
error is below the per-pixel-median baseline's. -/
theorem median_diff_maps_formula :
    (∀ (algoResultP : Scene → Algorithm → Image) (algorithms : List Algorithm)
        (scene : Scene) (nRows : Nat) (subdir : String) (xmin ymin ww : Nat),
        (∀ idxA (h : idxA < algorithms.length),
          (⟨((idxA + 1) / ((algorithms.length + 1 + (nRows - 1)) / nRows) * 2
                  + 1) *
                ((algorithms.length + 1 + (nRows - 1)) / nRows + 1) +
              (idxA + 1) % ((algorithms.length + 1 + (nRows - 1)) / nRows),
            .imshowRdYlGn
              (npSlice (fun i j =>
                  |algoResultP scene perPixMedianDiff i j - scene.gt i j| -
                  |algoResultP scene (algorithms.get ⟨idxA, h⟩) i j -
                    scene.gt i j|)
                ymin xmin ww)
              (-(1/20)) (1/20)⟩ : Panel) ∈
            (plotDiscontOverview algoResultP algorithms scene nRows subdir
              xmin ymin ww).panels ∧
          ∀ i j, i < ww → j < ww →
            npSlice (fun i j =>
                |algoResultP scene perPixMedianDiff i j - scene.gt i j| -
                |algoResultP scene (algorithms.get ⟨idxA, h⟩) i j -
                  scene.gt i j|)
              ymin xmin ww i j =
              |algoResultP scene perPixMedianDiff (ymin + i) (xmin + j) -
                scene.gt (ymin + i) (xmin + j)| -
              |algoResultP scene (algorithms.get ⟨idxA, h⟩) (ymin + i)
                  (xmin + j) -
                scene.gt (ymin + i) (xmin + j)|) ∧
        (∀ p ∈ (plotDiscontOverview algoResultP algorithms scene nRows subdir
            xmin ymin ww).panels,
          ∀ img vmin vmax,
            p.content = PanelContent.imshowRdYlGn img vmin vmax →
            vmin = -(1/20) ∧ vmax = 1/20 ∧
            ∃ a ∈ algorithms, ∀ i j, i < ww → j < ww →
              img i j =
                |algoResultP scene perPixMedianDiff (ymin + i) (xmin + j) -
                  scene.gt (ymin + i) (xmin + j)| -
                |algoResultP scene a (ymin + i) (xmin + j) -
                  scene.gt (ymin + i) (xmin + j)|)) ∧
    (∀ (resF : Scene → Algorithm → Image)
        (algoResult : Scene → Algorithm → Except Unit Image),
        (∀ s a, algoResult s a = Except.ok (resF s a)) →
        ∀ (scenes : List Scene) (algorithms : List Algorithm) (subdir : String)
          (withGtRow : Bool) (fig : FigureSpec) (n : Nat),
          plotMedianComparisonsRun algoResult scenes algorithms subdir
              withGtRow = Except.ok (fig, n) →
          (∀ idxS (hS : idxS < scenes.length) idxA
              (hA : idxA < algorithms.length),
            (⟨idxA * (scenes.length * 3 + 1) + 3 * idxS + 2,
              .imshowRdYlGn
                (fun i j =>
                  |resF (scenes.get ⟨idxS, hS⟩) perPixMedianDiff i j -
                      (scenes.get ⟨idxS, hS⟩).gt i j| -
                  |resF (scenes.get ⟨idxS, hS⟩) (algorithms.get ⟨idxA, hA⟩)
                        i j -
                      (scenes.get ⟨idxS, hS⟩).gt i j|)
                (-(1/20)) (1/20)⟩ : Panel) ∈ fig.panels) ∧
          (∀ p ∈ fig.panels, ∀ img vmin vmax,
            p.content = PanelContent.imshowRdYlGn img vmin vmax →
            vmin = -(1/20) ∧ vmax = 1/20 ∧
            ∃ s ∈ scenes, ∃ a ∈ algorithms, ∀ i j,
              img i j = |resF s perPixMedianDiff i j - s.gt i j| -
                |resF s a i j - s.gt i j|)) := by
  constructor
  · intro algoResultP algorithms scene nRows subdir xmin ymin ww
    constructor
    · intro idxA h
      refine ⟨discont_pair_panel_mem algoResultP algorithms scene nRows subdir
        xmin ymin ww idxA h, ?_⟩
      intro i j hi hj
      simp [npSlice, hi, hj]
    · exact discont_rdylgn_formula algoResultP algorithms scene nRows subdir
        xmin ymin ww
  · intro resF algoResult hres scenes algorithms subdir withGtRow fig n hrun
    constructor
    · intro idxS hS idxA hA
      rcases scenes with _ | ⟨s0, rest⟩
      · simp at hS
      · have hAne : algorithms.length ≠ 0 := by omega
        have hok := medianRun_ok resF algoResult hres s0 rest algorithms subdir
          withGtRow (Or.inl hAne)
        have he := Except.ok.inj (hok.symm.trans hrun)
        injection he with he1 he2
        subst he1
        exact median_pair_panel_mem resF algorithms
          ((s0 :: rest).length * 3 + 1) (s0 :: rest).length withGtRow
          (s0 :: rest) idxS hS idxA hA
    · exact median_rdylgn_formula resF algoResult hres scenes algorithms subdir
        withGtRow fig n hrun

/-- Median-diff image of the demo discontinuity overview (1 algorithm,
2 requested super-rows, default crop window). -/
def demoMedImg : Image :=
  npSlice (fun i j =>
    |demoResF demoScene perPixMedianDiff i j - demoScene.gt i j| -
    |demoResF demoScene demoAlgo i j - demoScene.gt i j|) 230 150 250

/-- Median-diff image (uncropped) of the demo median-comparison run. -/
def demoMedImgFlat : Image :=
  fun i j =>
    |demoResF demoScene perPixMedianDiff i j - demoScene.gt i j| -
    |demoResF demoScene demoAlgo i j - demoScene.gt i j|

/-- C1 witness: in the demo discontinuity overview the single algorithm's
own median-diff panel sits at grid cell 6 with the pixel-wise formula on the
crop window, and in the demo median-comparison run the (scene 0, algorithm 0)
median-diff panel sits at grid cell 2. -/
theorem median_diff_maps_formula_witness :
    ((⟨6, .imshowRdYlGn demoMedImg (-(1/20)) (1/20)⟩ : Panel) ∈
        (plotDiscontOverview demoResF [demoAlgo] demoScene 2 "overview"
          150 230 250).panels ∧
      ∀ i j, i < 250 → j < 250 →
        demoMedImg i j =
          |demoResF demoScene perPixMedianDiff (230 + i) (150 + j) -
            demoScene.gt (230 + i) (150 + j)| -
          |demoResF demoScene demoAlgo (230 + i) (150 + j) -
            demoScene.gt (230 + i) (150 + j)|) ∧
    ((⟨2, .imshowRdYlGn demoMedImgFlat (-(1/20)) (1/20)⟩ : Panel) ∈
        demoMedianFig.panels) :=
  ⟨(median_diff_maps_formula.1 demoResF [demoAlgo] demoScene 2 "overview"
      150 230 250).1 0 (by decide),
   ((median_diff_maps_formula.2 demoResF (fun s a => .ok (demoResF s a))
      (fun _ _ => rfl) [demoScene] [demoAlgo] "per_pix_comparisons" true
      demoMedianFig 0
      (medianRun_ok demoResF (fun s a => .ok (demoResF s a)) (fun _ _ => rfl)
        demoScene [] [demoAlgo] "per_pix_comparisons" true
        (Or.inl (by simp)))).1 0 (by decide) 0 (by decide))⟩
